import Mathlib

/-!
# Privacy Prism: analyze handlers, request client, dispatcher and progress

A shallow embedding of the JavaScript sources

* `api/server.js` (the Express route `/api/analyze/:dimension`),
* `api/[dimension].js` and `api/analyze/[dimension].js` (serverless handlers),
* `frontend/js/app.js` (`analyzeDimensionWithRetry`, `startParallelAnalysis`,
  `updateAnalysisProgress`, `resetDimensionCards`, `updateDimensionContent`).

JavaScript values are embedded as `JSValue`; thrown exceptions are explicit
results; the global `state` object is passed explicitly; network outcomes and
the shape of the page are parameters.
-/

namespace PrivacyPrism

/-! ## JavaScript values -/

/-- JSON-like JavaScript values. Numbers are restricted to the integers a
double holds exactly and prints in full (magnitude at most `2 ^ 53`). -/
inductive JSValue where
  | undefined : JSValue
  | null : JSValue
  | bool (b : Bool) : JSValue
  | number (n : Int) : JSValue
  | string (s : String) : JSValue
  | array (items : List JSValue) : JSValue
  | object (fields : List (String × JSValue)) : JSValue

/-- A thrown JavaScript error object; only its `message` is observed. -/
structure JSError where
  message : String
deriving DecidableEq, Repr

/-- JavaScript truthiness (`!x` is the negation of this). -/
def JSValue.truthy : JSValue → Bool
  | .undefined => false
  | .null => false
  | .bool b => b
  | .number n => n != 0
  | .string s => s != ""
  | .array _ => true
  | .object _ => true

/-- Own-property lookup in the field list of an object literal. -/
def lookupField : List (String × JSValue) → String → JSValue
  | [], _ => .undefined
  | (k, v) :: rest, name => if k = name then v else lookupField rest name

/-- Property read `v.name` (also what destructuring `const { name } = v` does):
throws a `TypeError` on `undefined` and `null`, reads the field of an object,
and gives `undefined` for a property that a primitive or an array lacks. -/
def JSValue.getProp (v : JSValue) (name : String) : Except JSError JSValue :=
  match v with
  | .undefined =>
      .error ⟨"Cannot read properties of undefined (reading " ++ name ++ ")"⟩
  | .null => .error ⟨"Cannot read properties of null (reading " ++ name ++ ")"⟩
  | .object fields => .ok (lookupField fields name)
  | _ => .ok .undefined

/-! ## HTTP requests and responses of the backend -/

/-- What a handler sees of a request: the method, the `dimension` path
segment (`req.params.dimension` / `req.query.dimension`, a string) and the
parsed body `req.body`. -/
structure Request where
  method : String
  dimension : String
  body : JSValue

/-- Response bodies the three analyze handlers can send. -/
inductive ResponseBody where
  | error (message : String)
  | errorWithMessage (error : String) (message : String)
  | errorWithDetails (error : String) (details : String)
  | content (content : JSValue) (dimension : String) (timestamp : String)
  | analysis (dimension : String) (inputType : JSValue) (score : String) (summary : String)
  | result (dimension : String) (type : JSValue) (summary : String) (preview : JSValue)

/-- A response: status code and JSON body. -/
structure Response where
  status : Nat
  body : ResponseBody

/-- The six dimension names, in the order every source file lists them
(`validDimensions` in `server.js`, `dimensions` in `app.js`). -/
def dimensions : List String :=
  ["exposure", "inference", "audience", "platforms", "amplification", "manipulability"]

/-- `validDimensions.includes(dimension)` of `server.js`. -/
def validDimensionsIncludes (dimension : String) : Bool :=
  dimensions.contains dimension

/-- `validDimensions.join(', ')`. -/
def validDimensionsJoin : String := ", ".intercalate dimensions

/-- Outcome of the upstream completion call of `server.js` (lines 65-97):
either the text `completion.choices[0].message.content` or a thrown error. -/
abbrev Upstream := Except JSError JSValue

/-- The Express route `app.all('/api/analyze/:dimension')` of `server.js`.
Returns the response and whether the upstream completion call was made.
`now` is `new Date().toISOString()`. -/
def serverAnalyze (req : Request) (upstream : Upstream) (now : String) : Response × Bool :=
  let failure (e : JSError) : Response :=
    ⟨500, .error ("Failed to analyze " ++ req.dimension ++ ":" ++ e.message)⟩
  if req.method != "POST" then
    (⟨405, .error "Method not allowed"⟩, false)
  else
    match req.body.getProp "input", req.body.getProp "type" with
    | .error e, _ => (failure e, false)
    | _, .error e => (failure e, false)
    | .ok input, .ok type =>
      if !validDimensionsIncludes req.dimension then
        (⟨400, .error ("Invalid dimension. Must be one of: " ++ validDimensionsJoin)⟩, false)
      else if !input.truthy || !type.truthy then
        (⟨400, .error "Missing required fields: input and type"⟩, false)
      else
        match upstream with
        | .error e => (failure e, true)
        | .ok result => (⟨200, .content result req.dimension now⟩, true)

/-- The `switch (dimension)` of `api/[dimension].js`: score and summary of a
known dimension, `none` for the `default` branch. -/
def dimensionSwitch (dimension : String) : Option (String × String) :=
  if dimension = "platforms" then
    some ("0.8", "Platforms are moderately privacy-conscious.")
  else if dimension = "audience" then
    some ("0.6", "Your audience exposure level is medium.")
  else if dimension = "exposure" then
    some ("0.7", "You have a fair amount of data exposure risk.")
  else if dimension = "manipulability" then
    some ("0.5", "Moderate potential for data manipulation.")
  else if dimension = "inference" then
    some ("0.4", "Some personal inferences can be drawn from your data.")
  else if dimension = "amplification" then
    some ("0.9", "High potential for data amplification across networks.")
  else
    none

/-- The handler of `api/[dimension].js`. -/
def dimensionHandler (req : Request) : Response :=
  if req.method != "POST" then
    ⟨405, .error "Method Not Allowed"⟩
  else
    match req.body.getProp "input", req.body.getProp "type" with
    | .error _, _ => ⟨500, .error "Internal Server Error"⟩
    | _, .error _ => ⟨500, .error "Internal Server Error"⟩
    | .ok input, .ok type =>
      if !input.truthy then
        ⟨400, .error "Missing \x27input\x27 field in request body."⟩
      else
        match dimensionSwitch req.dimension with
        | none => ⟨404, .error ("Unknown dimension: " ++ req.dimension)⟩
        | some (score, summary) =>
          ⟨200, .analysis req.dimension (if type.truthy then type else .string "text")
            score summary⟩

/-- The longest run of leading characters that fits in `budget` UTF-16 code
units; a character outside the basic plane takes two units. -/
def takeCodeUnits : Nat → List Char → List Char
  | _, [] => []
  | budget, c :: rest =>
    if (if c.toNat < 0x10000 then 1 else 2) ≤ budget then
      c :: takeCodeUnits (budget - (if c.toNat < 0x10000 then 1 else 2)) rest
    else []

/-- The call `input.slice(0, 100)`: the first 100 UTF-16 code units of a string
(when the cut falls inside a two-unit character, JavaScript keeps its first
half, which a string of whole characters cannot hold and which is left out
here), the first 100 items of an array, a `TypeError` for a value that has no
`slice` method. -/
def jsSlice100 (input : JSValue) : Except JSError JSValue :=
  match input with
  | .string s => .ok (.string (String.mk (takeCodeUnits 100 s.data)))
  | .array items => .ok (.array (items.take 100))
  | _ => .error ⟨"input.slice is not a function"⟩

/-- The handler of `api/analyze/[dimension].js`. It never inspects
`dimension`; it only echoes it. -/
def analyzeDimensionHandler (req : Request) : Response :=
  if req.method != "POST" then
    ⟨405, .errorWithMessage "Method Not Allowed" ("Use POST instead of " ++ req.method)⟩
  else
    match req.body.getProp "input", req.body.getProp "type" with
    | .error e, _ => ⟨500, .errorWithDetails "Internal Server Error" e.message⟩
    | _, .error e => ⟨500, .errorWithDetails "Internal Server Error" e.message⟩
    | .ok input, .ok type =>
      if !input.truthy then
        ⟨400, .error "Missing input in request body"⟩
      else
        match jsSlice100 input with
        | .error e => ⟨500, .errorWithDetails "Internal Server Error" e.message⟩
        | .ok preview =>
          ⟨200, .result req.dimension type
            ("Analysis complete for " ++ req.dimension) preview⟩

/-! ## Frontend state (`app.js`) -/

/-- `state.analysisResults[key] = value` on an object: overwrite the property
when it exists, add it at the end otherwise. -/
def setResult : List (String × JSValue) → String → JSValue → List (String × JSValue)
  | [], key, value => [(key, value)]
  | (k, v) :: rest, key, value =>
    if k = key then (k, value) :: rest else (k, v) :: setResult rest key value

/-- `state.analysisResults[key]` as a read: `none` when the key is absent. -/
def getResult : List (String × JSValue) → String → Option JSValue
  | [], _ => none
  | (k, v) :: rest, key => if k = key then some v else getResult rest key

/-- `Object.keys(state.analysisResults)`. -/
def resultKeys (results : List (String × JSValue)) : List String :=
  results.map Prod.fst

/-- The global `state` object of `app.js`. -/
structure State where
  currentPage : String
  currentInput : String
  currentType : String
  analysisResults : List (String × JSValue)
  isAnalyzing : Bool
  eventSource : JSValue
  completedDimensions : Nat
  totalDimensions : Nat

/-- The value of `state` when the script is loaded (lines 20-36). -/
def initialState : State where
  currentPage := "home"
  currentInput := ""
  currentType := "text"
  analysisResults :=
    [("exposure", .string ""), ("inference", .string ""), ("audience", .string ""),
     ("platforms", .string ""), ("amplification", .string ""),
     ("manipulability", .string "")]
  isAnalyzing := false
  eventSource := .null
  completedDimensions := 0
  totalDimensions := 6

/-! ## Progress display -/

/-- `Math.round(x)`: the nearest integer, halves rounded up. -/
def mathRound (x : ℚ) : Int := ⌊x + 1 / 2⌋

/-- What `updateAnalysisProgress` writes into the analyze button. -/
structure ProgressDisplay where
  progress : Int
  timeEstimate : Int
  label : String
deriving DecidableEq

/-- `updateAnalysisProgress()` (lines 256-266): the two numbers computed from
`state` and the text of the `<span>` they are written into. Divisions are
exact; for `totalDimensions = 0` JavaScript gives `NaN`, which is not modelled. -/
def updateAnalysisProgress (s : State) : ProgressDisplay :=
  let progress :=
    mathRound (((s.completedDimensions : ℚ) / (s.totalDimensions : ℚ)) * 100)
  let timeEstimate :=
    max 5 (mathRound ((((s.totalDimensions : ℚ) - (s.completedDimensions : ℚ))) * 2))
  { progress := progress
    timeEstimate := timeEstimate
    label := "ANALYZING... " ++ toString progress ++ "% (~" ++ toString timeEstimate
      ++ "s remaining)" }

/-! ## Request client: `analyzeDimensionWithRetry` -/

/-- How one `fetch` of one attempt ends. -/
inductive FetchOutcome where
  /-- The promise returned by `fetch` rejects (network failure, abort). -/
  | rejected (error : JSError)
  /-- A response arrives: `response.ok` is `200 <= status <= 299`;
  `text` is what `response.text()` settles to and `json` what `response.json()`
  settles to. -/
  | response (status : Nat) (statusText : String) (text : Except JSError String)
      (json : Except JSError JSValue)
  /-- The promise returned by `fetch` never settles. -/
  | pending

/-- How the body of the `try` block of one attempt ends (lines 337-371). -/
inductive AttemptResult where
  | returned (result : JSValue)
  | threw (error : JSError)
  | hangs

/-- One pass through the `try` block, from the `fetch` to `return result`. -/
def attemptBody (o : FetchOutcome) : AttemptResult :=
  match o with
  | .pending => .hangs
  | .rejected e => .threw e
  | .response status statusText text json =>
    if !(decide (200 ≤ status) && decide (status ≤ 299)) then
      match text with
      | .error e => .threw e
      | .ok _ => .threw ⟨"HTTP " ++ toString status ++ ":" ++ statusText⟩
    else
      match json with
      | .error e => .threw e
      | .ok result =>
        match result.getProp "content" with
        | .error e => .threw e
        | .ok _ => .returned result

/-- Observable actions of the request client. -/
inductive ClientEvent where
  /-- The call `fetch(url, { method: "POST", body: JSON.stringify({ input, type }) })`
  made by attempt number `attempt`. -/
  | fetch (url : String) (input : String) (type : String) (attempt : Nat)
  /-- The call `setTimeout(resolve, ms)` that is awaited between two attempts. -/
  | wait (ms : Nat)
deriving DecidableEq, Repr

/-- How a call of `analyzeDimensionWithRetry` ends. -/
inductive ClientResult where
  /-- `return result`. -/
  | fulfilled (value : JSValue)
  /-- `throw error` on the last attempt. -/
  | rejected (reason : JSError)
  /-- The `for` loop ended without entering its body (`maxRetries < 1`):
  the function returns `undefined`. -/
  | fulfilledUndefined
  /-- A `fetch` never settled, so the call never settles. -/
  | pending
  /-- The fuel of the model ran out (never happens, see `retryLoop_fuel`). -/
  | outOfFuel

/-- Result, final state and event trace of one client call. -/
structure ClientRun where
  result : ClientResult
  state : State
  trace : List ClientEvent

/-- The `for (let attempt = ...; attempt <= maxRetries; attempt++)` loop of
`analyzeDimensionWithRetry` (lines 336-384), entered with the current value of
`attempt`. `outcomes n` is how the fetch of attempt `n` ends. -/
def retryLoop (apiBaseUrl dimension input type : String) (outcomes : Nat → FetchOutcome)
    (maxRetries : Nat) : Nat → Nat → State → ClientRun
  | 0, attempt, s =>
    if attempt ≤ maxRetries then ⟨.outOfFuel, s, []⟩ else ⟨.fulfilledUndefined, s, []⟩
  | fuel + 1, attempt, s =>
    if attempt ≤ maxRetries then
      let request :=
        ClientEvent.fetch (apiBaseUrl ++ "/api/analyze/" ++ dimension) input type attempt
      match attemptBody (outcomes attempt) with
      | .hangs => ⟨.pending, s, [request]⟩
      | .returned result =>
        ⟨.fulfilled result, { s with completedDimensions := s.completedDimensions + 1 },
          [request]⟩
      | .threw error =>
        if attempt = maxRetries then
          ⟨.rejected error, s, [request]⟩
        else
          let rest :=
            retryLoop apiBaseUrl dimension input type outcomes maxRetries fuel (attempt + 1) s
          { rest with trace := request :: .wait (1000 * attempt) :: rest.trace }
    else
      ⟨.fulfilledUndefined, s, []⟩

/-- The default value of the parameter `maxRetries`. -/
def defaultMaxRetries : Nat := 2

/-- `analyzeDimensionWithRetry(dimension, input, type, maxRetries)`. The loop
starts at `attempt = 1` and runs at most `maxRetries` times. -/
def analyzeDimensionWithRetry (apiBaseUrl dimension input type : String)
    (outcomes : Nat → FetchOutcome) (maxRetries : Nat) (s : State) : ClientRun :=
  retryLoop apiBaseUrl dimension input type outcomes maxRetries maxRetries 1 s

/-- Number of `fetch` calls in a trace. -/
def fetchCount : List ClientEvent → Nat
  | [] => 0
  | .fetch _ _ _ _ :: rest => fetchCount rest + 1
  | .wait _ :: rest => fetchCount rest

/-! ## Dispatcher: `startParallelAnalysis` -/

/-- A dimension card of the page: whether `card.querySelector` finds the
`.dimension-content` and the `.loading-spinner` elements. -/
structure Card where
  hasContent : Bool
  hasSpinner : Bool

/-- The page as the script sees it: `card key` is what
`document.getElementById("dimension-" + key)` returned for `elements.dimensionCards`
(`none` for `null`). The other elements of `elements` are taken to exist. -/
structure Page where
  card : String → Option Card

/-- `elements.dimensionCards[dimension]`: the object literal has the six keys
only. -/
def dimensionCard (page : Page) (dimension : String) : Option Card :=
  if dimensions.contains dimension then page.card dimension else none

/-- The `TypeError` of a method call or property write on `null`. -/
def nullError (property : String) : JSError :=
  ⟨"Cannot read properties of null (reading " ++ property ++ ")"⟩

/-- The `forEach` of `resetDimensionCards` over the remaining keys: the state
reached and the exception that stopped it, if any. -/
def resetCards (page : Page) : List String → State → State × Option JSError
  | [], s => (s, none)
  | key :: rest, s =>
    match dimensionCard page key with
    | none => (s, some (nullError "querySelector"))
    | some card =>
      if !card.hasContent then (s, some (nullError "innerHTML"))
      else if !card.hasSpinner then (s, some (nullError "classList"))
      else
        resetCards page rest
          { s with analysisResults := setResult s.analysisResults key (.string "") }

/-- `resetDimensionCards()` (lines 387-399). -/
def resetDimensionCards (page : Page) (s : State) : State × Option JSError :=
  resetCards page dimensions s

/-- The operator of `state.analysisResults[dimension] += content`:
concatenation of two strings, sum of two numbers. Other operand pairs need
coercions that are not modelled and give `undefined` here; no call in the
source passes `append = true`. -/
def jsPlus : JSValue → JSValue → JSValue
  | .string a, .string b => .string (a ++ b)
  | .number a, .number b => .number (a + b)
  | _, _ => .undefined

/-- `updateDimensionContent(dimension, content, append)` (lines 401-415). -/
def updateDimensionContent (page : Page) (dimension : String) (content : JSValue)
    (append : Bool) (s : State) : State × Option JSError :=
  match dimensionCard page dimension with
  | none => (s, none)
  | some card =>
    let old := (getResult s.analysisResults dimension).getD .undefined
    let stored := if append then jsPlus old content else content
    let s1 := { s with analysisResults := setResult s.analysisResults dimension stored }
    if card.hasContent then (s1, none) else (s1, some (nullError "textContent"))

/-- `markDimensionComplete(dimension)` (lines 417-426): it only touches the
page; the result is the exception it throws, if any. -/
def markDimensionComplete (page : Page) (dimension : String) : Option JSError :=
  match dimensionCard page dimension with
  | none => none
  | some card =>
    if !card.hasSpinner then some (nullError "classList")
    else if !card.hasContent then some (nullError "classList")
    else none

/-- A settled promise, as `Promise.allSettled` reports it. -/
inductive Settled where
  | fulfilled (value : JSValue)
  | rejected (reason : JSError)

/-- The settled form of a client call; `none` when the call never settles. -/
def ClientResult.settled : ClientResult → Option Settled
  | .fulfilled value => some (.fulfilled value)
  | .rejected reason => some (.rejected reason)
  | .fulfilledUndefined => some (.fulfilled .undefined)
  | .pending => none
  | .outOfFuel => none

/-- The failure text of the dispatcher (line 317). -/
def failureText (reason : JSError) : String := "Analysis failed: " ++ reason.message

/-- The body of `results.forEach((result, index) => ...)` for one dimension
(lines 308-319). -/
def processResult (page : Page) (dimension : String) (result : Settled) (s : State) :
    State × Option JSError :=
  match result with
  | .fulfilled value =>
    match value.getProp "content" with
    | .error e => (s, some e)
    | .ok content =>
      let s1 := { s with analysisResults := setResult s.analysisResults dimension content }
      match updateDimensionContent page dimension content false s1 with
      | (s2, some e) => (s2, some e)
      | (s2, none) => (s2, markDimensionComplete page dimension)
  | .rejected reason =>
    match updateDimensionContent page dimension (.string (failureText reason)) false s with
    | (s2, some e) => (s2, some e)
    | (s2, none) => (s2, markDimensionComplete page dimension)

/-- The `forEach` over the settled results, in the order of `dimensions`. -/
def processResults (page : Page) : List (String × Settled) → State → State × Option JSError
  | [], s => (s, none)
  | (dimension, result) :: rest, s =>
    match processResult page dimension result s with
    | (s1, some e) => (s1, some e)
    | (s1, none) => processResults page rest s1

/-- The `forEach` of `handleAnalysisComplete` that marks every card complete. -/
def markAll (page : Page) : List String → Option JSError
  | [] => none
  | key :: rest =>
    match markDimensionComplete page key with
    | some e => some e
    | none => markAll page rest

/-- `resetAnalyzeButton()` (lines 442-455), its effect on `state`. -/
def resetAnalyzeButton (s : State) : State :=
  { s with isAnalyzing := false, completedDimensions := 0 }

/-- `handleAnalysisComplete()` (lines 428-440). -/
def handleAnalysisComplete (page : Page) (s : State) : State × Option JSError :=
  match markAll page dimensions with
  | some e => (s, some e)
  | none => (resetAnalyzeButton s, none)

/-- The six client calls settling one after the other in the order given:
each call changes `state` at the moment it settles (a call that never settles
changes nothing). Returns the state and the settled results by dimension. -/
def settleInOrder (apiBaseUrl input type : String) (outcomes : String → Nat → FetchOutcome) :
    List String → State → State × List (String × Settled)
  | [], s => (s, [])
  | dimension :: rest, s =>
    let run :=
      analyzeDimensionWithRetry apiBaseUrl dimension input type (outcomes dimension)
        defaultMaxRetries s
    match run.result.settled with
    | none => settleInOrder apiBaseUrl input type outcomes rest s
    | some r =>
      let later := settleInOrder apiBaseUrl input type outcomes rest run.state
      (later.1, (dimension, r) :: later.2)

/-- `await Promise.allSettled(analysisPromises)`: the results in the order of
the given dimensions, `none` when one of the promises never settles. -/
def allSettled (settled : List (String × Settled)) :
    List String → Option (List (String × Settled))
  | [] => some []
  | dimension :: rest =>
    match settled.lookup dimension, allSettled settled rest with
    | some r, some rs => some ((dimension, r) :: rs)
    | _, _ => none

/-- How a call of `startParallelAnalysis` ends. -/
inductive RunOutcome where
  /-- `handleAnalysisComplete()` was reached and returned. -/
  | completed
  /-- An exception inside the `try` was caught (lines 324-328). -/
  | caught (error : JSError)
  /-- An exception before the `try` left the function. -/
  | threw (error : JSError)
  /-- The `await` of line 304 never resumes. -/
  | pending
deriving DecidableEq

/-- Outcome and final state of a run. -/
structure Run where
  outcome : RunOutcome
  state : State

/-- The part of `startParallelAnalysis` before its `try` (lines 274-292):
`state.isAnalyzing = true`, `state.completedDimensions = 0` and
`resetDimensionCards()`. -/
def beginRun (page : Page) (s : State) : State × Option JSError :=
  resetDimensionCards page { s with isAnalyzing := true, completedDimensions := 0 }

/-- `startParallelAnalysis(input, type)` (lines 268-329). `order` is the order
in which the client calls settle; `outcomes d n` is how the fetch of attempt
`n` for dimension `d` ends. -/
def startParallelAnalysis (page : Page) (apiBaseUrl : String)
    (outcomes : String → Nat → FetchOutcome) (order : List String)
    (input type : String) (s : State) : Run :=
  match beginRun page s with
  | (s1, some e) => ⟨.threw e, s1⟩
  | (s1, none) =>
    let settled := settleInOrder apiBaseUrl input type outcomes order s1
    match allSettled settled.2 dimensions with
    | none => ⟨.pending, settled.1⟩
    | some results =>
      match processResults page results settled.1 with
      | (s2, some e) => ⟨.caught e, resetAnalyzeButton s2⟩
      | (s2, none) =>
        match handleAnalysisComplete page s2 with
        | (s3, some e) => ⟨.caught e, resetAnalyzeButton s3⟩
        | (s3, none) => ⟨.completed, s3⟩

/-! ## Input validation: `handleAnalyze` and `isValidURL` -/

/-- The characters `String.prototype.trim` removes: the white space and line
terminator code points of ECMAScript. -/
def isJSWhitespace (c : Char) : Bool :=
  let n := c.toNat
  n == 0x09 || n == 0x0A || n == 0x0B || n == 0x0C || n == 0x0D || n == 0x20 ||
    n == 0xA0 || n == 0x1680 || (decide (0x2000 ≤ n) && decide (n ≤ 0x200A)) ||
    n == 0x2028 || n == 0x2029 || n == 0x202F || n == 0x205F || n == 0x3000 || n == 0xFEFF

/-- `value.trim()`. -/
def jsTrim (value : String) : String :=
  String.mk ((value.data.dropWhile isJSWhitespace).reverse.dropWhile isJSWhitespace).reverse

/-- `input.length`: the number of UTF-16 code units of a string. -/
def utf16Length (input : String) : Nat :=
  (input.data.map (fun c => if c.toNat < 0x10000 then 1 else 2)).sum

/-- `isValidURL(string)` (lines 164-171). `parseProtocol string` stands for the
platform constructor `new URL(string)`: `none` when it throws, otherwise the
`protocol` of the parsed absolute URL (the lower-case scheme followed by a
colon). -/
def isValidURL (parseProtocol : String → Option String) (string : String) : Bool :=
  match parseProtocol string with
  | some protocol => protocol == "http:" || protocol == "https:"
  | none => false

/-- The fetches a call of `startParallelAnalysis` issues: none when the code
before the `try` throws, otherwise those of the six client calls, listed by
dimension. -/
def runEvents (page : Page) (apiBaseUrl : String) (outcomes : String → Nat → FetchOutcome)
    (input type : String) (s : State) : List ClientEvent :=
  match beginRun page s with
  | (_, some _) => []
  | (s1, none) =>
    dimensions.flatMap (fun d =>
      (analyzeDimensionWithRetry apiBaseUrl d input type (outcomes d) defaultMaxRetries
        s1).trace)

/-- What a click on the analyze button leads to. -/
structure AnalyzeResult where
  /-- The message passed to `showError`, if any. -/
  error : Option String
  /-- The arguments of the call `startParallelAnalysis(input, type)`, if made. -/
  started : Option (String × String)
  /-- The run that was started, if any. -/
  run : Option Run
  /-- The client events of the run. -/
  events : List ClientEvent
  /-- The state once everything the click started has ended. -/
  state : State

/-- `handleAnalyze()` (lines 130-162). `textAreaValue` and `urlFieldValue` are
`elements.textArea.value` and `elements.urlField.value`. -/
def handleAnalyze (parseProtocol : String → Option String) (page : Page) (apiBaseUrl : String)
    (outcomes : String → Nat → FetchOutcome) (order : List String)
    (textAreaValue urlFieldValue : String) (s : State) : AnalyzeResult :=
  let input := if s.currentType = "text" then jsTrim textAreaValue else jsTrim urlFieldValue
  if input = "" then
    ⟨some "Please provide input content or URL", none, none, [], s⟩
  else if s.currentType = "url" ∧ isValidURL parseProtocol input = false then
    ⟨some "Please enter a valid URL (must start with http:// or https://)", none, none, [], s⟩
  else if s.currentType = "text" ∧ utf16Length input < 10 then
    ⟨some "Text content is too short. Please provide at least 10 characters.", none, none,
      [], s⟩
  else
    let s1 := { s with currentInput := input }
    let run := startParallelAnalysis page apiBaseUrl outcomes order input s.currentType s1
    ⟨none, some (input, s.currentType), some run,
      runEvents page apiBaseUrl outcomes input s.currentType s1, run.state⟩

/-- An example of a URL parser, for the scheme only: a string parses when it
starts with an ASCII letter followed by letters, digits, `+`, `-` or `.` up to
a colon; the protocol is that scheme in lower case with the colon. -/
def exampleParseProtocol (string : String) : Option String :=
  let scheme := string.data.takeWhile (fun c => c != ':')
  match scheme with
  | [] => none
  | first :: rest =>
    if first.isAlpha && rest.all (fun c => c.isAlphanum || c == '+' || c == '-' || c == '.')
        && decide (scheme.length < string.length) then
      some (String.mk (scheme.map Char.toLower ++ [':']))
    else none

/-! ## The attempt timeout (lines 340-353) -/

/-- The `AbortController` an attempt creates; `aborted` is what
`controller.abort()`, called by the timer after 25000 ms, sets. -/
structure AbortController where
  aborted : Bool

/-- The options object of a `fetch` call. -/
structure FetchInit where
  method : String
  contentType : String
  input : String
  type : String
  /-- The `signal` property, when the options have one. -/
  signal : Option AbortController

/-- The options `analyzeDimensionWithRetry` passes to `fetch` (lines 349-353):
`method`, `headers` and `body`, and no `signal`. -/
def attemptFetchInit (input type : String) : FetchInit :=
  ⟨"POST", "application/json", input, type, none⟩

/-- How a fetch ends once the timer of the attempt has fired: an unanswered
fetch is rejected with an `AbortError` when its options carry the signal of
the aborted controller, and is left as it is otherwise. -/
def fetchAfterTimeout (init : FetchInit) (o : FetchOutcome) : FetchOutcome :=
  match o, init.signal with
  | .pending, some controller =>
    if controller.aborted then .rejected ⟨"signal is aborted without reason"⟩ else .pending
  | other, _ => other

/-! ## The PDF endpoint (`server.js`, lines 120-217) -/

mutual
/-- The string a template literal makes of a value (numbers being integers of
magnitude at most `2 ^ 53`, they are printed in full). -/
def JSValue.display : JSValue → String
  | .undefined => "undefined"
  | .null => "null"
  | .bool b => if b then "true" else "false"
  | .number n => toString n
  | .string s => s
  | .array items => displayItems items
  | .object _ => "[object Object]"
termination_by structural v => v
/-- The items of an array joined by commas, `undefined` and `null` giving
the empty string. -/
def displayItems : List JSValue → String
  | [] => ""
  | [.undefined] => ""
  | [.null] => ""
  | [x] => x.display
  | .undefined :: rest => "," ++ displayItems rest
  | .null :: rest => "," ++ displayItems rest
  | x :: rest => x.display ++ "," ++ displayItems rest
termination_by structural l => l
end

/-- What the endpoint uses of the PDF library and of the platform. -/
structure PdfEnv where
  /-- The number `doc.internal.pageSize.height`. -/
  pageHeight : ℚ
  /-- The number `doc.internal.pageSize.width`. -/
  pageWidth : ℚ
  /-- The call `doc.splitTextToSize(text, maxWidth)` under the current font
  size and weight: the lines, or the exception the library throws. -/
  splitTextToSize : JSValue → Nat → Bool → ℚ → Except JSError (List String)
  /-- The comparison `v > 0` for a string, an array or an object `v`, which
  goes through the conversion of `v` to a number. -/
  coercedPositive : JSValue → Bool
  /-- The string `new Date().toLocaleString()`. -/
  localeNow : String

/-- A line drawn by `doc.text(line, margin, y)`. -/
structure DrawnLine where
  text : String
  y : ℚ
  page : Nat
  fontSize : Nat
  bold : Bool

/-- The document under construction: the variable `yPosition`, the current
page, the lines `addText` has drawn, the calls of `addText` made so far, and
the copyright line drawn at the end. -/
structure PdfDoc where
  yPosition : ℚ
  page : Nat
  lines : List DrawnLine
  calls : List (JSValue × Nat × Bool)
  footer : Option DrawnLine

/-- The constant `margin`. -/
def pdfMargin : ℚ := 20

/-- The constant `lineHeight`. -/
def pdfLineHeight : ℚ := 7

/-- The `for` loop of `addText` (lines 152-159). -/
def addTextLines (pageHeight : ℚ) (fontSize : Nat) (isBold : Bool) :
    List String → PdfDoc → PdfDoc
  | [], doc => doc
  | line :: rest, doc =>
    let doc1 :=
      if doc.yPosition > pageHeight - pdfMargin then
        { doc with page := doc.page + 1, yPosition := pdfMargin }
      else doc
    addTextLines pageHeight fontSize isBold rest
      { doc1 with lines := doc1.lines ++ [⟨line, doc1.yPosition, doc1.page, fontSize, isBold⟩]
                  yPosition := doc1.yPosition + pdfLineHeight }

/-- `addText(text, fontSize, isBold)` (lines 142-161). -/
def addText (env : PdfEnv) (text : JSValue) (fontSize : Nat) (isBold : Bool) (doc : PdfDoc) :
    Except JSError PdfDoc :=
  match env.splitTextToSize text fontSize isBold (env.pageWidth - 2 * pdfMargin) with
  | .error e => .error e
  | .ok lines =>
    let drawn := addTextLines env.pageHeight fontSize isBold lines
      { doc with calls := doc.calls ++ [(text, fontSize, isBold)] }
    .ok { drawn with yPosition := drawn.yPosition + 2 }

/-- The property `result.length` of a truthy value. -/
def jsLength : JSValue → JSValue
  | .string s => .number (utf16Length s)
  | .array items => .number items.length
  | .object fields => lookupField fields "length"
  | _ => .undefined

/-- The comparison `v > 0`. -/
def jsGreaterThanZero (env : PdfEnv) : JSValue → Bool
  | .undefined => false
  | .null => false
  | .bool b => b
  | .number n => decide (0 < n)
  | other => env.coercedPositive other

/-- The condition `result && result.length > 0` of line 183. -/
def sectionCondition (env : PdfEnv) (result : JSValue) : Bool :=
  result.truthy && jsGreaterThanZero env (jsLength result)

/-- The array `dimensions` of the endpoint (lines 172-179): key and title. -/
def pdfSections : List (String × String) :=
  [("exposure", "01 EXPOSURE"), ("inference", "02 INFERENCE"),
   ("audience", "03 AUDIENCE & CONSEQUENCES"), ("platforms", "04 PLATFORMS & RULES"),
   ("amplification", "05 AMPLIFICATION"), ("manipulability", "06 MANIPULABILITY")]

/-- The `forEach` over the sections (lines 181-188). -/
def addSections (env : PdfEnv) (results : JSValue) :
    List (String × String) → PdfDoc → Except JSError PdfDoc
  | [], doc => .ok doc
  | (key, title) :: rest, doc =>
    match results.getProp key with
    | .error e => .error e
    | .ok result =>
      if sectionCondition env result then
        match addText env (.string title) 14 true doc with
        | .error e => .error e
        | .ok doc1 =>
          match addText env result 11 false doc1 with
          | .error e => .error e
          | .ok doc2 =>
            addSections env results rest { doc2 with yPosition := doc2.yPosition + 3 }
      else addSections env results rest doc

/-- The footer text used when the request has none. -/
def defaultFooterText : String :=
  "This report was generated by Privacy Prism, a privacy risk analysis tool."

/-- The disclaimer paragraph of line 199. -/
def disclaimerText : String :=
  "DISCLAIMER: This platform provides AI-powered privacy risk assessments for educational and informational purposes only. All analysis results should be reviewed by qualified privacy professionals before making critical decisions."

/-- The part of the handler that draws the document (lines 134-203). -/
def buildPdf (env : PdfEnv) (content results timestamp footerText : JSValue) :
    Except JSError PdfDoc := do
  let doc0 : PdfDoc := ⟨20, 1, [], [], none⟩
  let doc1 ← addText env (.string "PRIVACY PRISM") 20 true doc0
  let doc2 ← addText env (.string "Privacy Risk Analysis Report") 16 true doc1
  let doc3 ← addText env
    (.string ("Generated on " ++ if timestamp.truthy then timestamp.display else env.localeNow))
    10 false doc2
  let doc4 ← addText env (.string "Analyzed Content") 14 true
    { doc3 with yPosition := doc3.yPosition + 10 }
  let doc5 ← addText env content 12 false doc4
  let doc6 ← addSections env results pdfSections { doc5 with yPosition := doc5.yPosition + 5 }
  let doc7 :=
    if doc6.yPosition > env.pageHeight - 60 then
      { doc6 with page := doc6.page + 1, yPosition := pdfMargin }
    else doc6
  let doc8 ← addText env (.string "About Privacy Prism") 14 true doc7
  let doc9 ← addText env (if footerText.truthy then footerText else .string defaultFooterText)
    10 false doc8
  let doc10 ← addText env (.string disclaimerText) 9 false
    { doc9 with yPosition := doc9.yPosition + 10 }
  let copyright : DrawnLine :=
    ⟨"© 2025 Privacy Prism. All rights reserved.", env.pageHeight - 15, doc10.page, 8, false⟩
  pure { doc10 with footer := some copyright }

/-- Responses of the PDF endpoint. -/
inductive PdfResponse where
  /-- The call `res.status(status).json({ error: message })`. -/
  | error (status : Nat) (message : String)
  /-- The call `res.send(pdfBuffer)` with status 200 and the headers
  `Content-Type: application/pdf` and `Content-Disposition: attachment`. -/
  | pdf (doc : PdfDoc)

/-- The status code of a response of the PDF endpoint. -/
def PdfResponse.status : PdfResponse → Nat
  | .error status _ => status
  | .pdf _ => 200

/-- The handler `app.post("/api/generate-pdf")`; `body` is `req.body`. -/
def generatePdf (env : PdfEnv) (body : JSValue) : PdfResponse :=
  let attempt : Except JSError (Option PdfDoc) := do
    let content ← body.getProp "content"
    let results ← body.getProp "results"
    let timestamp ← body.getProp "timestamp"
    let footerText ← body.getProp "footerText"
    if !content.truthy || !results.truthy then
      pure none
    else
      let doc ← buildPdf env content results timestamp footerText
      pure (some doc)
  match attempt with
  | .error e => .error 500 ("Failed to generate PDF: " ++ e.message)
  | .ok none => .error 400 "Missing content or results in request body"
  | .ok (some doc) => .pdf doc

/-- `results[key]` for a value that has properties. -/
def jsProp (v : JSValue) (key : String) : JSValue :=
  match v.getProp key with
  | .ok result => result
  | .error _ => .undefined

/-- The calls of `addText` the sections make: title and text of each section
whose result passes the condition, in the order of the sections. -/
def sectionCalls (env : PdfEnv) (results : JSValue) (sections : List (String × String)) :
    List (JSValue × Nat × Bool) :=
  (sections.filter (fun sec => sectionCondition env (jsProp results sec.1))).flatMap
    (fun sec => [(JSValue.string sec.2, 14, true), (jsProp results sec.1, 11, false)])

/-- The calls of `addText` before the sections (lines 163-169). -/
def headerCalls (env : PdfEnv) (content timestamp : JSValue) : List (JSValue × Nat × Bool) :=
  [(.string "PRIVACY PRISM", 20, true), (.string "Privacy Risk Analysis Report", 16, true),
   (.string ("Generated on " ++ if timestamp.truthy then timestamp.display else env.localeNow),
     10, false),
   (.string "Analyzed Content", 14, true), (content, 12, false)]

/-- The calls of `addText` after the sections (lines 195-199). -/
def trailerCalls (footerText : JSValue) : List (JSValue × Nat × Bool) :=
  [(.string "About Privacy Prism", 14, true),
   (if footerText.truthy then footerText else .string defaultFooterText, 10, false),
   (.string disclaimerText, 9, false)]

/-- The lines of the document a response carries: none for an error. -/
def PdfResponse.lines : PdfResponse → List DrawnLine
  | .error _ _ => []
  | .pdf doc => doc.lines

/-- The text, font size and weight of a drawn line. -/
def DrawnLine.styled (l : DrawnLine) : String × Nat × Bool := (l.text, l.fontSize, l.bold)

/-- The lines the library breaks the text of one `addText` call into, with the
font size and weight of the call. -/
def callLines (env : PdfEnv) (call : JSValue × Nat × Bool) : List (String × Nat × Bool) :=
  match env.splitTextToSize call.1 call.2.1 call.2.2 (env.pageWidth - 2 * pdfMargin) with
  | .ok lines => lines.map (fun line => (line, call.2.1, call.2.2))
  | .error _ => []

/-- The lines of a sequence of `addText` calls, in order. -/
def linesOfCalls (env : PdfEnv) (calls : List (JSValue × Nat × Bool)) :
    List (String × Nat × Bool) :=
  calls.flatMap (callLines env)

/-- The position at which a line is drawn when `yPosition` is `y`: 20 when
`y` is past the bottom margin, `y` otherwise. -/
def linePosition (pageHeight y : ℚ) : ℚ := if y > pageHeight - 20 then 20 else y

/-- The page on which a line is drawn when `yPosition` is `y` on page `page`:
the next page when `y` is past the bottom margin. -/
def linePage (pageHeight y : ℚ) (page : Nat) : Nat :=
  if y > pageHeight - 20 then page + 1 else page

/-- Line `b` is placed as the line drawn right after line `a` by the same call
of `addText`: seven units lower, or at 20 on the next page when that would be
past the bottom margin. -/
def Follows (pageHeight : ℚ) (a b : DrawnLine) : Prop :=
  b.y = linePosition pageHeight (a.y + 7) ∧ b.page = linePage pageHeight (a.y + 7) a.page

/-- The state of a document in which `yPosition` and every drawn line are on
or below the top margin and every drawn line is on or above the bottom
margin. -/
def PdfDoc.WithinMargins (pageHeight : ℚ) (doc : PdfDoc) : Prop :=
  pdfMargin ≤ doc.yPosition ∧
    ∀ l, l ∈ doc.lines → pdfMargin ≤ l.y ∧ l.y ≤ pageHeight - pdfMargin

/-- An example of the environment: an A4 page in millimetres and a library
that puts every text on one line. -/
def examplePdfEnv : PdfEnv where
  pageHeight := 297
  pageWidth := 210
  splitTextToSize := fun text _ _ _ => .ok [text.display]
  coercedPositive := fun _ => false
  localeNow := "1/1/2025, 12:00:00 AM"

/-- A request body of the PDF endpoint whose results are a text for
`exposure`, the empty string for `inference`, nothing for `audience`, a text
for `platforms`, `null` for `amplification` and a number for `manipulability`. -/
def pdfBodySomeSections : JSValue :=
  .object [("content", .string "hello world"),
    ("results", .object [("platforms", .string "Public by default."),
      ("exposure", .string "Names a workplace."), ("inference", .string ""),
      ("amplification", .null), ("manipulability", .number 3)]),
    ("timestamp", .string "January 1, 2025 at 12:00 AM"),
    ("footerText", .string "Footer.")]

/-- A request body of the PDF endpoint without `timestamp` and `footerText`. -/
def pdfBodyWithoutTimestamp : JSValue :=
  .object [("content", .string "hello world"),
    ("results", .object [("exposure", .string "Names a workplace."), ("inference", .string "")])]

/-! ## Definitions used to state the properties -/

/-- Whether a client call ended with `return result`. -/
def ClientResult.isFulfilled : ClientResult → Bool
  | .fulfilled _ => true
  | _ => false

/-- The events of a call in which the attempts `attempt`, ..., `attempt + failed - 1`
fail and one more attempt is made: each failed attempt `n` is followed by a
wait of `1000 * n` ms, and nothing follows the last fetch. -/
def backoffTrace (url input type : String) : Nat → Nat → List ClientEvent
  | attempt, 0 => [.fetch url input type attempt]
  | attempt, failed + 1 =>
    .fetch url input type attempt :: .wait (1000 * attempt) ::
      backoffTrace url input type (attempt + 1) failed

/-- The events of a call that makes `n` attempts, written out: every attempt
`i` before the last is a fetch followed by a wait of `1000 * i` ms, and the
last event is the fetch of attempt `n`. -/
def attemptsTrace (url input type : String) (n : Nat) : List ClientEvent :=
  (List.range (n - 1)).flatMap
      (fun i => [ClientEvent.fetch url input type (i + 1), ClientEvent.wait (1000 * (i + 1))])
    ++ [ClientEvent.fetch url input type n]

/-- The text the dispatcher stores for a settled result: the `content`
property of a fulfilled value, the failure text of a rejection. -/
def Settled.stored : Settled → JSValue
  | .fulfilled value =>
    match value.getProp "content" with
    | .ok content => content
    | .error _ => .undefined
  | .rejected reason => .string (failureText reason)

/-- Whether `result.value.content` can be read without an exception. -/
def Settled.readable : Settled → Bool
  | .fulfilled .undefined => false
  | .fulfilled .null => false
  | _ => true

/-- Writing the stored text of each result, in order. -/
def storeAll : List (String × Settled) → List (String × JSValue) → List (String × JSValue)
  | [], rs => rs
  | (dimension, result) :: rest, rs => storeAll rest (setResult rs dimension result.stored)

/-- Writing the empty string at each key, in order. -/
def clearAll : List String → List (String × JSValue) → List (String × JSValue)
  | [], rs => rs
  | key :: rest, rs => clearAll rest (setResult rs key (.string ""))

/-- Every dimension card of the page exists and has both of its parts. -/
def Page.Complete (page : Page) : Prop :=
  ∀ d, d ∈ dimensions → ∃ c, page.card d = some c ∧ c.hasContent = true ∧ c.hasSpinner = true

/-- The result of the client call of one dimension with the default number of
attempts; it depends on nothing but how the fetches of that dimension end
(`analyzeDimensionWithRetry_result`). -/
def clientResult (outcomes : Nat → FetchOutcome) : ClientResult :=
  (analyzeDimensionWithRetry "" "" "" "" outcomes defaultMaxRetries initialState).result

/-- Number of fulfilled results among the settled ones. -/
def fulfilledCount : List (String × Settled) → Nat
  | [] => 0
  | (_, .fulfilled _) :: rest => fulfilledCount rest + 1
  | (_, .rejected _) :: rest => fulfilledCount rest

/-! ## Example inputs -/

/-- A request body `{ input: "hello world", type: "text" }`. -/
def sampleBody : JSValue :=
  .object [("input", .string "hello world"), ("type", .string "text")]

/-- A `POST` for the unknown dimension `foo` with a well-formed body. -/
def unknownDimensionRequest : Request := ⟨"POST", "foo", sampleBody⟩

/-- A `200` response of the backend with body `{ content: text }`. -/
def okResponse (text : String) : FetchOutcome :=
  .response 200 "OK" (.ok "") (.ok (.object [("content", .string text)]))

/-- A `500` response of the backend. -/
def serverErrorResponse : FetchOutcome :=
  .response 500 "Internal Server Error" (.ok "") (.error ⟨"Unexpected end of JSON input"⟩)

/-- A fetch that fails in the network layer. -/
def networkFailure : FetchOutcome := .rejected ⟨"Failed to fetch"⟩

/-- A page on which all six dimension cards exist with both of their parts. -/
def fullPage : Page := ⟨fun _ => some ⟨true, true⟩⟩

/-! ## Text search and attempt predicates -/

/-- `text.includes(search)` on lists of characters: whether `search` starts
the list. -/
def startsWithChars : List Char → List Char → Bool
  | _, [] => true
  | [], _ :: _ => false
  | c :: cs, p :: ps => c == p && startsWithChars cs ps

/-- Whether `search` occurs somewhere in the list of characters. -/
def includesChars : List Char → List Char → Bool
  | [], search => startsWithChars [] search
  | c :: cs, search => startsWithChars (c :: cs) search || includesChars cs search

/-- `text.includes(search)`. -/
def jsIncludes (text search : String) : Bool := includesChars text.data search.data

/-- The fetches of a dimension fail on both attempts of a default call, the
second one with `reason`. -/
def FailsEveryAttempt (outcomes : Nat → FetchOutcome) (reason : JSError) : Prop :=
  (∃ e, attemptBody (outcomes 1) = .threw e) ∧ attemptBody (outcomes 2) = .threw reason

/-- A default call gets the response `value`: on attempt 1, or on attempt 2
after a failed attempt 1. -/
def Succeeds (outcomes : Nat → FetchOutcome) (value : JSValue) : Prop :=
  attemptBody (outcomes 1) = .returned value ∨
    ((∃ e, attemptBody (outcomes 1) = .threw e) ∧ attemptBody (outcomes 2) = .returned value)

/-! ## The analyze handlers and unknown dimensions -/

/-- The Express route answers `400` to a `POST` for an unknown dimension whose
body is an object, without calling upstream. -/
theorem serverAnalyze_unknown_dimension (dimension : String) (fields : List (String × JSValue))
    (upstream : Upstream) (now : String) (h : dimension ∉ dimensions) :
    (serverAnalyze ⟨"POST", dimension, .object fields⟩ upstream now).1.status = 400 ∧
      (serverAnalyze ⟨"POST", dimension, .object fields⟩ upstream now).2 = false := by
  simp [serverAnalyze, JSValue.getProp, validDimensionsIncludes, h]

/-- The switch of `api/[dimension].js` has a case exactly for the six names. -/
theorem dimensionSwitch_eq_none (dimension : String) :
    dimensionSwitch dimension = none ↔ dimension ∉ dimensions := by
  unfold dimensionSwitch dimensions
  constructor
  · intro h
    split_ifs at h
    simp_all
  · intro h
    simp at h
    simp [h]

/-- The handler `api/[dimension].js` answers `400` or `404` to a `POST` for an
unknown dimension whose body is an object. -/
theorem dimensionHandler_unknown_dimension (dimension : String)
    (fields : List (String × JSValue)) (h : dimension ∉ dimensions) :
    (dimensionHandler ⟨"POST", dimension, .object fields⟩).status = 400 ∨
      (dimensionHandler ⟨"POST", dimension, .object fields⟩).status = 404 := by
  have hs := (dimensionSwitch_eq_none dimension).2 h
  simp only [dimensionHandler, JSValue.getProp]
  by_cases hi : (lookupField fields "input").truthy <;> simp [hi, hs]

/-- C1 (evaluation at the failing input): `foo` is not one of the six
dimensions, the Express route answers `400` and `api/[dimension].js` answers
`404` to a `POST` for it, but `api/analyze/[dimension].js` answers `200` with
a success body that echoes the unknown dimension. -/
theorem analyzeDimensionHandler_accepts_unknown_dimension :
    unknownDimensionRequest.dimension ∉ dimensions ∧
      (serverAnalyze unknownDimensionRequest (.ok (.string "text")) "now").1.status = 400 ∧
      (dimensionHandler unknownDimensionRequest).status = 404 ∧
      (analyzeDimensionHandler unknownDimensionRequest).status = 200 ∧
      (analyzeDimensionHandler unknownDimensionRequest).body =
        .result "foo" (.string "text") "Analysis complete for foo" (.string "hello world") := by
  exact ⟨by decide, by decide, by decide, by decide, rfl⟩

/-! ## The request client: attempts, waits and results -/

/-- One iteration of the loop, by the way the attempt ends. -/
theorem retryLoop_succ (apiBaseUrl dimension input type : String)
    (outcomes : Nat → FetchOutcome) (maxRetries fuel attempt : Nat) (s : State)
    (h : attempt ≤ maxRetries) :
    retryLoop apiBaseUrl dimension input type outcomes maxRetries (fuel + 1) attempt s =
      match attemptBody (outcomes attempt) with
      | .hangs =>
        ⟨.pending, s,
          [.fetch (apiBaseUrl ++ "/api/analyze/" ++ dimension) input type attempt]⟩
      | .returned result =>
        ⟨.fulfilled result, { s with completedDimensions := s.completedDimensions + 1 },
          [.fetch (apiBaseUrl ++ "/api/analyze/" ++ dimension) input type attempt]⟩
      | .threw error =>
        if attempt = maxRetries then
          ⟨.rejected error, s,
            [.fetch (apiBaseUrl ++ "/api/analyze/" ++ dimension) input type attempt]⟩
        else
          ⟨(retryLoop apiBaseUrl dimension input type outcomes maxRetries fuel (attempt + 1)
              s).result,
            (retryLoop apiBaseUrl dimension input type outcomes maxRetries fuel (attempt + 1)
              s).state,
            .fetch (apiBaseUrl ++ "/api/analyze/" ++ dimension) input type attempt ::
              .wait (1000 * attempt) ::
              (retryLoop apiBaseUrl dimension input type outcomes maxRetries fuel (attempt + 1)
                s).trace⟩ := by
  simp only [retryLoop, if_pos h]

/-- The loop is over as soon as `attempt` exceeds `maxRetries`. -/
theorem retryLoop_done (apiBaseUrl dimension input type : String)
    (outcomes : Nat → FetchOutcome) (maxRetries fuel attempt : Nat) (s : State)
    (h : ¬ attempt ≤ maxRetries) :
    retryLoop apiBaseUrl dimension input type outcomes maxRetries fuel attempt s =
      ⟨.fulfilledUndefined, s, []⟩ := by
  cases fuel <;> simp [retryLoop, h]

/-- The loop makes at most `fuel` fetches. -/
theorem retryLoop_fetchCount_le (apiBaseUrl dimension input type : String)
    (outcomes : Nat → FetchOutcome) (maxRetries fuel attempt : Nat) (s : State) :
    fetchCount
      (retryLoop apiBaseUrl dimension input type outcomes maxRetries fuel attempt s).trace
        ≤ fuel := by
  induction fuel generalizing attempt with
  | zero =>
    unfold retryLoop
    split_ifs <;> simp [fetchCount]
  | succ fuel ih =>
    by_cases h1 : attempt ≤ maxRetries
    · rw [retryLoop_succ _ _ _ _ _ _ _ _ _ h1]
      cases attemptBody (outcomes attempt) with
      | hangs => simp [fetchCount]
      | returned result => simp [fetchCount]
      | threw error =>
        by_cases h2 : attempt = maxRetries
        · simp only [if_pos h2, fetchCount]
          omega
        · have := ih (attempt + 1)
          simp only [if_neg h2, fetchCount]
          omega
    · rw [retryLoop_done _ _ _ _ _ _ _ _ _ h1]
      simp [fetchCount]

/-- The result of the loop does not depend on the state, the URL or the
request body, only on how the fetches end. -/
theorem retryLoop_result_congr (a1 d1 i1 t1 a2 d2 i2 t2 : String)
    (outcomes : Nat → FetchOutcome) (maxRetries fuel attempt : Nat) (s1 s2 : State) :
    (retryLoop a1 d1 i1 t1 outcomes maxRetries fuel attempt s1).result =
      (retryLoop a2 d2 i2 t2 outcomes maxRetries fuel attempt s2).result := by
  induction fuel generalizing attempt with
  | zero =>
    unfold retryLoop
    split_ifs <;> rfl
  | succ fuel ih =>
    by_cases h1 : attempt ≤ maxRetries
    · rw [retryLoop_succ _ _ _ _ _ _ _ _ _ h1, retryLoop_succ _ _ _ _ _ _ _ _ _ h1]
      cases attemptBody (outcomes attempt) with
      | hangs => rfl
      | returned result => rfl
      | threw error =>
        by_cases h2 : attempt = maxRetries
        · simp only [if_pos h2]
        · simp only [if_neg h2]
          exact ih (attempt + 1)
    · rw [retryLoop_done _ _ _ _ _ _ _ _ _ h1, retryLoop_done _ _ _ _ _ _ _ _ _ h1]

/-- The loop changes nothing of the state but `completedDimensions`, which it
increments exactly when it ends with `return result`. -/
theorem retryLoop_state (apiBaseUrl dimension input type : String)
    (outcomes : Nat → FetchOutcome) (maxRetries fuel attempt : Nat) (s : State) :
    (retryLoop apiBaseUrl dimension input type outcomes maxRetries fuel attempt s).state =
      { s with completedDimensions := s.completedDimensions +
          if (retryLoop apiBaseUrl dimension input type outcomes maxRetries fuel attempt
            s).result.isFulfilled then 1 else 0 } := by
  induction fuel generalizing attempt with
  | zero =>
    unfold retryLoop
    split_ifs <;> simp_all [ClientResult.isFulfilled]
  | succ fuel ih =>
    by_cases h1 : attempt ≤ maxRetries
    · rw [retryLoop_succ _ _ _ _ _ _ _ _ _ h1]
      cases attemptBody (outcomes attempt) with
      | hangs => simp [ClientResult.isFulfilled]
      | returned result => simp [ClientResult.isFulfilled]
      | threw error =>
        by_cases h2 : attempt = maxRetries
        · simp [if_pos h2, ClientResult.isFulfilled]
        · simp only [if_neg h2]
          exact ih (attempt + 1)
    · rw [retryLoop_done _ _ _ _ _ _ _ _ _ h1]
      simp [ClientResult.isFulfilled]

/-- A value returned by an attempt has a readable `content` property: it is
neither `undefined` nor `null`. -/
theorem attemptBody_returned (o : FetchOutcome) (v : JSValue)
    (h : attemptBody o = .returned v) : ∃ c, v.getProp "content" = .ok c := by
  unfold attemptBody at h
  split at h
  · cases h
  · cases h
  · split_ifs at h
    · split at h <;> cases h
    · split at h
      · cases h
      · split at h
        · cases h
        · next c hc =>
          cases h
          exact ⟨c, hc⟩

/-- A value the loop returns has a readable `content` property. -/
theorem retryLoop_fulfilled (apiBaseUrl dimension input type : String)
    (outcomes : Nat → FetchOutcome) (maxRetries fuel attempt : Nat) (s : State) (v : JSValue)
    (h : (retryLoop apiBaseUrl dimension input type outcomes maxRetries fuel attempt
      s).result = .fulfilled v) : ∃ c, v.getProp "content" = .ok c := by
  induction fuel generalizing attempt with
  | zero =>
    unfold retryLoop at h
    split_ifs at h
  | succ fuel ih =>
    by_cases h1 : attempt ≤ maxRetries
    · rw [retryLoop_succ _ _ _ _ _ _ _ _ _ h1] at h
      cases hb : attemptBody (outcomes attempt) with
      | hangs => simp [hb] at h
      | returned result =>
        simp only [hb, ClientResult.fulfilled.injEq] at h
        subst h
        exact attemptBody_returned _ _ hb
      | threw error =>
        by_cases h2 : attempt = maxRetries
        · simp [hb, if_pos h2] at h
        · simp only [hb, if_neg h2] at h
          exact ih (attempt + 1) h
    · rw [retryLoop_done _ _ _ _ _ _ _ _ _ h1] at h
      cases h

/-- The loop when `failed` attempts throw and the next one returns. -/
theorem retryLoop_returned (apiBaseUrl dimension input type : String)
    (outcomes : Nat → FetchOutcome) (maxRetries : Nat) (s : State) (v : JSValue)
    (failed : Nat) : ∀ (fuel attempt : Nat), failed < fuel → attempt + failed ≤ maxRetries →
      (∀ i, i < failed → ∃ e, attemptBody (outcomes (attempt + i)) = .threw e) →
      attemptBody (outcomes (attempt + failed)) = .returned v →
      retryLoop apiBaseUrl dimension input type outcomes maxRetries fuel attempt s =
        ⟨.fulfilled v, { s with completedDimensions := s.completedDimensions + 1 },
          backoffTrace (apiBaseUrl ++ "/api/analyze/" ++ dimension) input type attempt failed⟩ := by
  induction failed with
  | zero =>
    intro fuel attempt hf ha _ hr
    obtain ⟨fuel, rfl⟩ : ∃ k, fuel = k + 1 := ⟨fuel - 1, by omega⟩
    have ha2 : attempt ≤ maxRetries := by omega
    simp only [Nat.add_zero] at hr
    rw [retryLoop_succ _ _ _ _ _ _ _ _ _ ha2, hr]
    rfl
  | succ failed ih =>
    intro fuel attempt hf ha hfail hr
    obtain ⟨fuel, rfl⟩ : ∃ k, fuel = k + 1 := ⟨fuel - 1, by omega⟩
    have ha2 : attempt ≤ maxRetries := by omega
    have hne : attempt ≠ maxRetries := by omega
    obtain ⟨e, he⟩ := hfail 0 (by omega)
    simp only [Nat.add_zero] at he
    have hrec := ih fuel (attempt + 1) (by omega) (by omega)
      (fun i hi => by
        have := hfail (i + 1) (by omega)
        rwa [show attempt + 1 + i = attempt + (i + 1) by omega])
      (by rwa [show attempt + 1 + failed = attempt + (failed + 1) by omega])
    rw [retryLoop_succ _ _ _ _ _ _ _ _ _ ha2, he]
    simp only [if_neg hne, hrec, backoffTrace]

/-- The loop when every attempt up to `maxRetries` throws. -/
theorem retryLoop_rejected (apiBaseUrl dimension input type : String)
    (outcomes : Nat → FetchOutcome) (maxRetries : Nat) (s : State) (last : JSError)
    (failed : Nat) : ∀ (fuel attempt : Nat), failed < fuel → attempt + failed = maxRetries →
      (∀ i, i < failed → ∃ e, attemptBody (outcomes (attempt + i)) = .threw e) →
      attemptBody (outcomes maxRetries) = .threw last →
      retryLoop apiBaseUrl dimension input type outcomes maxRetries fuel attempt s =
        ⟨.rejected last, s,
          backoffTrace (apiBaseUrl ++ "/api/analyze/" ++ dimension) input type attempt failed⟩ := by
  induction failed with
  | zero =>
    intro fuel attempt hf ha _ hr
    obtain ⟨fuel, rfl⟩ : ∃ k, fuel = k + 1 := ⟨fuel - 1, by omega⟩
    have ha2 : attempt = maxRetries := by omega
    subst ha2
    rw [retryLoop_succ _ _ _ _ _ _ _ _ _ (le_refl _), hr]
    simp only [if_true, backoffTrace]
  | succ failed ih =>
    intro fuel attempt hf ha hfail hr
    obtain ⟨fuel, rfl⟩ : ∃ k, fuel = k + 1 := ⟨fuel - 1, by omega⟩
    have ha2 : attempt ≤ maxRetries := by omega
    have hne : attempt ≠ maxRetries := by omega
    obtain ⟨e, he⟩ := hfail 0 (by omega)
    simp only [Nat.add_zero] at he
    have hrec := ih fuel (attempt + 1) (by omega) (by omega)
      (fun i hi => by
        have := hfail (i + 1) (by omega)
        rwa [show attempt + 1 + i = attempt + (i + 1) by omega])
      hr
    rw [retryLoop_succ _ _ _ _ _ _ _ _ _ ha2, he]
    simp only [if_neg hne, hrec, backoffTrace]

/-- The loop when `failed` attempts throw and `maxRetries` is not yet reached:
the events start with the failed attempts, each followed by its wait, and the
fetch of the next attempt, however that attempt ends. -/
theorem retryLoop_threw (apiBaseUrl dimension input type : String)
    (outcomes : Nat → FetchOutcome) (maxRetries : Nat) (s : State)
    (failed : Nat) : ∀ (fuel attempt : Nat), failed < fuel → attempt + failed ≤ maxRetries →
      (∀ i, i < failed → ∃ e, attemptBody (outcomes (attempt + i)) = .threw e) →
      ∃ rest, (retryLoop apiBaseUrl dimension input type outcomes maxRetries fuel attempt
        s).trace =
        backoffTrace (apiBaseUrl ++ "/api/analyze/" ++ dimension) input type attempt failed
          ++ rest := by
  induction failed with
  | zero =>
    intro fuel attempt hf ha _
    obtain ⟨fuel, rfl⟩ : ∃ k, fuel = k + 1 := ⟨fuel - 1, by omega⟩
    have ha2 : attempt ≤ maxRetries := by omega
    rw [retryLoop_succ _ _ _ _ _ _ _ _ _ ha2]
    cases attemptBody (outcomes attempt) with
    | hangs => exact ⟨[], by simp [backoffTrace]⟩
    | returned result => exact ⟨[], by simp [backoffTrace]⟩
    | threw error =>
      by_cases h2 : attempt = maxRetries
      · exact ⟨[], by simp [if_pos h2, backoffTrace]⟩
      · exact ⟨.wait (1000 * attempt) ::
          (retryLoop apiBaseUrl dimension input type outcomes maxRetries fuel (attempt + 1)
            s).trace,
          by simp only [if_neg h2, backoffTrace, List.singleton_append]⟩
  | succ failed ih =>
    intro fuel attempt hf ha hfail
    obtain ⟨fuel, rfl⟩ : ∃ k, fuel = k + 1 := ⟨fuel - 1, by omega⟩
    have ha2 : attempt ≤ maxRetries := by omega
    have hne : attempt ≠ maxRetries := by omega
    obtain ⟨e, he⟩ := hfail 0 (by omega)
    simp only [Nat.add_zero] at he
    obtain ⟨rest, hrest⟩ := ih fuel (attempt + 1) (by omega) (by omega)
      (fun i hi => by
        have := hfail (i + 1) (by omega)
        rwa [show attempt + 1 + i = attempt + (i + 1) by omega])
    rw [retryLoop_succ _ _ _ _ _ _ _ _ _ ha2, he]
    exact ⟨rest, by simp only [if_neg hne, hrest, backoffTrace, List.cons_append]⟩

/-- With fuel `maxRetries + 1 - attempt` the loop never runs out of fuel. -/
theorem retryLoop_fuel (apiBaseUrl dimension input type : String)
    (outcomes : Nat → FetchOutcome) (maxRetries fuel attempt : Nat) (s : State)
    (h : maxRetries + 1 ≤ attempt + fuel) :
    (retryLoop apiBaseUrl dimension input type outcomes maxRetries fuel attempt s).result ≠
      .outOfFuel := by
  induction fuel generalizing attempt with
  | zero =>
    have : ¬ attempt ≤ maxRetries := by omega
    simp [retryLoop, this]
  | succ fuel ih =>
    by_cases h1 : attempt ≤ maxRetries
    · rw [retryLoop_succ _ _ _ _ _ _ _ _ _ h1]
      cases attemptBody (outcomes attempt) with
      | hangs => simp
      | returned result => simp
      | threw error =>
        by_cases h2 : attempt = maxRetries
        · simp [if_pos h2]
        · simp only [if_neg h2]
          exact ih (attempt + 1) (by omega)
    · rw [retryLoop_done _ _ _ _ _ _ _ _ _ h1]
      simp

/-- The loop returns `undefined` only when it is entered past `maxRetries`. -/
theorem retryLoop_ne_fulfilledUndefined (apiBaseUrl dimension input type : String)
    (outcomes : Nat → FetchOutcome) (maxRetries fuel attempt : Nat) (s : State)
    (h : attempt ≤ maxRetries) (hf : maxRetries + 1 ≤ attempt + fuel) :
    (retryLoop apiBaseUrl dimension input type outcomes maxRetries fuel attempt s).result ≠
      .fulfilledUndefined := by
  induction fuel generalizing attempt with
  | zero => omega
  | succ fuel ih =>
    rw [retryLoop_succ _ _ _ _ _ _ _ _ _ h]
    cases attemptBody (outcomes attempt) with
    | hangs => simp
    | returned result => simp
    | threw error =>
      by_cases h2 : attempt = maxRetries
      · simp [if_pos h2]
      · simp only [if_neg h2]
        exact ih (attempt + 1) (by omega) (by omega)

/-- The recursive and the written-out description of the events agree. -/
theorem backoffTrace_eq (url input type : String) (failed attempt : Nat) :
    backoffTrace url input type attempt failed =
      (List.range failed).flatMap
          (fun i => [ClientEvent.fetch url input type (attempt + i),
            ClientEvent.wait (1000 * (attempt + i))])
        ++ [ClientEvent.fetch url input type (attempt + failed)] := by
  induction failed generalizing attempt with
  | zero => simp [backoffTrace]
  | succ failed ih =>
    rw [backoffTrace, ih (attempt + 1), List.range_succ_eq_map]
    simp [List.flatMap_map, Nat.add_assoc, Nat.add_comm 1]

/-- The events of a call whose first `n - 1` attempts fail. -/
theorem backoffTrace_one (url input type : String) (n : Nat) (h : 1 ≤ n) :
    backoffTrace url input type 1 (n - 1) = attemptsTrace url input type n := by
  rw [backoffTrace_eq, attemptsTrace]
  have : 1 + (n - 1) = n := by omega
  simp [this, Nat.add_comm 1]

/-- C2: with the default `maxRetries` the client makes at most two fetches,
whatever the attempts do; when attempt 1 succeeds it is the only fetch; when
attempt 1 fails, attempt 2 is the last fetch, whether it succeeds or fails. -/
theorem analyzeDimensionWithRetry_default_fetches (apiBaseUrl dimension input type : String)
    (outcomes : Nat → FetchOutcome) (s : State) :
    fetchCount
        (analyzeDimensionWithRetry apiBaseUrl dimension input type outcomes defaultMaxRetries
          s).trace ≤ 2 ∧
      (∀ v, attemptBody (outcomes 1) = .returned v →
        (analyzeDimensionWithRetry apiBaseUrl dimension input type outcomes defaultMaxRetries
          s).trace = [.fetch (apiBaseUrl ++ "/api/analyze/" ++ dimension) input type 1]) ∧
      (∀ e, attemptBody (outcomes 1) = .threw e → attemptBody (outcomes 2) ≠ .hangs →
        (analyzeDimensionWithRetry apiBaseUrl dimension input type outcomes defaultMaxRetries
          s).trace =
          [.fetch (apiBaseUrl ++ "/api/analyze/" ++ dimension) input type 1, .wait 1000,
            .fetch (apiBaseUrl ++ "/api/analyze/" ++ dimension) input type 2]) := by
  refine ⟨retryLoop_fetchCount_le _ _ _ _ _ _ _ _ _, ?_, ?_⟩
  · intro v hv
    simp [analyzeDimensionWithRetry, defaultMaxRetries, retryLoop, hv]
  · intro e he hne
    cases h2 : attemptBody (outcomes 2) with
    | hangs => exact absurd h2 hne
    | returned v =>
      simp [analyzeDimensionWithRetry, defaultMaxRetries, retryLoop, he, h2]
    | threw e2 =>
      simp [analyzeDimensionWithRetry, defaultMaxRetries, retryLoop, he, h2]

/-- C2 at a concrete input: two network failures give exactly two fetches. -/
theorem analyzeDimensionWithRetry_default_fetches_witness :
    attemptBody networkFailure = .threw ⟨"Failed to fetch"⟩ ∧
      (analyzeDimensionWithRetry "" "exposure" "hello world" "text" (fun _ => networkFailure)
        defaultMaxRetries initialState).trace =
        [.fetch "/api/analyze/exposure" "hello world" "text" 1, .wait 1000,
          .fetch "/api/analyze/exposure" "hello world" "text" 2] :=
  ⟨rfl,
    (analyzeDimensionWithRetry_default_fetches "" "exposure" "hello world" "text"
      (fun _ => networkFailure) initialState).2.2 ⟨"Failed to fetch"⟩ rfl
        (by simp [networkFailure, attemptBody])⟩

/-- C7 (counterexample): a call whose first attempt succeeds leaves
`state.completedDimensions` at 1 where it was 0. -/
theorem analyzeDimensionWithRetry_mutates_state :
    (analyzeDimensionWithRetry "" "exposure" "hello world" "text" (fun _ => okResponse "fine")
      defaultMaxRetries initialState).state.completedDimensions = 1 ∧
      initialState.completedDimensions = 0 := by
  decide

/-- C7 (amended): the client leaves every field of `state` other than
`completedDimensions` unchanged; it adds one to `completedDimensions` when it
returns a response and leaves it unchanged otherwise. -/
theorem analyzeDimensionWithRetry_state_frame (apiBaseUrl dimension input type : String)
    (outcomes : Nat → FetchOutcome) (maxRetries : Nat) (s : State) :
    (analyzeDimensionWithRetry apiBaseUrl dimension input type outcomes maxRetries s).state =
      { s with completedDimensions := s.completedDimensions +
          if (analyzeDimensionWithRetry apiBaseUrl dimension input type outcomes maxRetries
            s).result.isFulfilled then 1 else 0 } :=
  retryLoop_state _ _ _ _ _ _ _ _ _

/-- C9: when the attempts 1 to `n` fail and `n < maxRetries`, the events of
the call start with the fetches 1 to `n`, each followed by a wait of
`1000 * i` ms, and the fetch of attempt `n + 1`; when the attempts before
attempt `n` fail and attempt `n` succeeds, the call returns the response of
attempt `n` and nothing follows the fetch of attempt `n`; when all
`maxRetries` attempts fail, nothing follows the fetch of the last attempt; for
a failed attempt 1 and a successful attempt 2 the events are fetch, wait 1000,
fetch, and the value returned is the response of attempt 2. -/
theorem analyzeDimensionWithRetry_backoff (apiBaseUrl dimension input type : String)
    (outcomes : Nat → FetchOutcome) (maxRetries : Nat) (s : State) :
    (∀ n, 1 ≤ n → n < maxRetries →
        (∀ i, 1 ≤ i → i ≤ n → ∃ e, attemptBody (outcomes i) = .threw e) →
        ∃ rest, (analyzeDimensionWithRetry apiBaseUrl dimension input type outcomes maxRetries
            s).trace =
          attemptsTrace (apiBaseUrl ++ "/api/analyze/" ++ dimension) input type (n + 1)
            ++ rest) ∧
      (∀ n v, 1 ≤ n → n ≤ maxRetries →
        (∀ i, 1 ≤ i → i < n → ∃ e, attemptBody (outcomes i) = .threw e) →
        attemptBody (outcomes n) = .returned v →
        (analyzeDimensionWithRetry apiBaseUrl dimension input type outcomes maxRetries
            s).result = .fulfilled v ∧
          (analyzeDimensionWithRetry apiBaseUrl dimension input type outcomes maxRetries
            s).trace = attemptsTrace (apiBaseUrl ++ "/api/analyze/" ++ dimension) input type n) ∧
      (1 ≤ maxRetries →
        (∀ i, 1 ≤ i → i ≤ maxRetries → ∃ e, attemptBody (outcomes i) = .threw e) →
        (analyzeDimensionWithRetry apiBaseUrl dimension input type outcomes maxRetries
            s).trace =
          attemptsTrace (apiBaseUrl ++ "/api/analyze/" ++ dimension) input type maxRetries) ∧
      (∀ e v, 2 ≤ maxRetries → attemptBody (outcomes 1) = .threw e →
        attemptBody (outcomes 2) = .returned v →
        (analyzeDimensionWithRetry apiBaseUrl dimension input type outcomes maxRetries
            s).result = .fulfilled v ∧
          (analyzeDimensionWithRetry apiBaseUrl dimension input type outcomes maxRetries
            s).trace =
            [.fetch (apiBaseUrl ++ "/api/analyze/" ++ dimension) input type 1, .wait 1000,
              .fetch (apiBaseUrl ++ "/api/analyze/" ++ dimension) input type 2]) := by
  have success : ∀ n v, 1 ≤ n → n ≤ maxRetries →
      (∀ i, 1 ≤ i → i < n → ∃ e, attemptBody (outcomes i) = .threw e) →
      attemptBody (outcomes n) = .returned v →
      (analyzeDimensionWithRetry apiBaseUrl dimension input type outcomes maxRetries
          s).result = .fulfilled v ∧
        (analyzeDimensionWithRetry apiBaseUrl dimension input type outcomes maxRetries
          s).trace = attemptsTrace (apiBaseUrl ++ "/api/analyze/" ++ dimension) input type n := by
    intro n v h1 hn hfail hret
    have hrun := retryLoop_returned apiBaseUrl dimension input type outcomes maxRetries s v
      (n - 1) maxRetries 1 (by omega) (by omega)
      (fun i hi => hfail (1 + i) (by omega) (by omega))
      (by rwa [show 1 + (n - 1) = n by omega])
    rw [analyzeDimensionWithRetry, hrun, backoffTrace_one _ _ _ _ h1]
    exact ⟨rfl, rfl⟩
  refine ⟨?_, success, ?_, ?_⟩
  · intro n h1 hn hfail
    obtain ⟨rest, hrest⟩ := retryLoop_threw apiBaseUrl dimension input type outcomes
      maxRetries s n maxRetries 1 (by omega) (by omega)
      (fun i hi => hfail (1 + i) (by omega) (by omega))
    have := backoffTrace_one (apiBaseUrl ++ "/api/analyze/" ++ dimension) input type (n + 1)
      (by omega)
    simp only [Nat.add_sub_cancel] at this
    exact ⟨rest, by rw [analyzeDimensionWithRetry, hrest, this]⟩
  · intro h1 hfail
    obtain ⟨last, hlast⟩ := hfail maxRetries h1 (le_refl _)
    have hrun := retryLoop_rejected apiBaseUrl dimension input type outcomes maxRetries s last
      (maxRetries - 1) maxRetries 1 (by omega) (by omega)
      (fun i hi => hfail (1 + i) (by omega) (by omega)) hlast
    rw [analyzeDimensionWithRetry, hrun, backoffTrace_one _ _ _ _ h1]
  · intro e v h2 he hv
    have := success 2 v (by omega) h2
      (fun i hi1 hi2 => by
        have : i = 1 := by omega
        subst this
        exact ⟨e, he⟩) hv
    simpa [attemptsTrace, List.range_succ] using this

/-- C9 at a concrete input: attempt 1 gets a `500`, attempt 2 succeeds. -/
theorem analyzeDimensionWithRetry_backoff_witness :
    (2 ≤ defaultMaxRetries ∧
      attemptBody serverErrorResponse = .threw ⟨"HTTP 500:Internal Server Error"⟩ ∧
      attemptBody (okResponse "fine") = .returned (.object [("content", .string "fine")])) ∧
      (analyzeDimensionWithRetry "" "exposure" "hello world" "text"
          (fun n => if n = 1 then serverErrorResponse else okResponse "fine")
          defaultMaxRetries initialState).result =
          .fulfilled (.object [("content", .string "fine")]) ∧
        (analyzeDimensionWithRetry "" "exposure" "hello world" "text"
          (fun n => if n = 1 then serverErrorResponse else okResponse "fine")
          defaultMaxRetries initialState).trace =
          [.fetch "/api/analyze/exposure" "hello world" "text" 1, .wait 1000,
            .fetch "/api/analyze/exposure" "hello world" "text" 2] :=
  ⟨⟨by decide, rfl, rfl⟩,
    (analyzeDimensionWithRetry_backoff "" "exposure" "hello world" "text"
      (fun n => if n = 1 then serverErrorResponse else okResponse "fine")
      defaultMaxRetries initialState).2.2.2 ⟨"HTTP 500:Internal Server Error"⟩
      (.object [("content", .string "fine")]) (by decide) rfl rfl⟩

/-- C10: when every attempt fails the call is rejected with the error of the
last attempt; a response outside 200-299 whose text can be read fails its
attempt with the error `HTTP <status>:<statusText>`; and for `maxRetries ≥ 1`
the call never returns `undefined`: a value it returns is a parsed response
that is neither `undefined` nor `null`. -/
theorem analyzeDimensionWithRetry_rejects_with_last_error
    (apiBaseUrl dimension input type : String) (outcomes : Nat → FetchOutcome)
    (maxRetries : Nat) (s : State) (h1 : 1 ≤ maxRetries) :
    (∀ last, (∀ i, 1 ≤ i → i < maxRetries → ∃ e, attemptBody (outcomes i) = .threw e) →
        attemptBody (outcomes maxRetries) = .threw last →
        (analyzeDimensionWithRetry apiBaseUrl dimension input type outcomes maxRetries
          s).result = .rejected last) ∧
      (∀ status statusText text json, ¬ (200 ≤ status ∧ status ≤ 299) →
        attemptBody (.response status statusText (.ok text) json) =
          .threw ⟨"HTTP " ++ toString status ++ ":" ++ statusText⟩) ∧
      (analyzeDimensionWithRetry apiBaseUrl dimension input type outcomes maxRetries
          s).result ≠ .fulfilledUndefined ∧
      (analyzeDimensionWithRetry apiBaseUrl dimension input type outcomes maxRetries
          s).result ≠ .outOfFuel ∧
      (∀ v, (analyzeDimensionWithRetry apiBaseUrl dimension input type outcomes maxRetries
          s).result = .fulfilled v → v ≠ .undefined ∧ v ≠ .null) := by
  refine ⟨?_, ?_, ?_, ?_, ?_⟩
  · intro last hfail hlast
    have hrun := retryLoop_rejected apiBaseUrl dimension input type outcomes maxRetries s last
      (maxRetries - 1) maxRetries 1 (by omega) (by omega)
      (fun i hi => hfail (1 + i) (by omega) (by omega)) hlast
    rw [analyzeDimensionWithRetry, hrun]
  · intro status statusText text json hs
    have : (decide (200 ≤ status) && decide (status ≤ 299)) = false := by
      simpa [Bool.and_eq_false_iff] using hs
    simp [attemptBody, this]
  · exact retryLoop_ne_fulfilledUndefined _ _ _ _ _ _ _ _ _ h1 (by omega)
  · exact retryLoop_fuel _ _ _ _ _ _ _ _ _ (by omega)
  · intro v hv
    obtain ⟨c, hc⟩ := retryLoop_fulfilled _ _ _ _ _ _ _ _ _ _ hv
    constructor <;> rintro rfl <;> simp [JSValue.getProp] at hc

/-- C10 at a concrete input: a network failure, then a `500`, with two
attempts: the call is rejected with the `HTTP 500` error of attempt 2. -/
theorem analyzeDimensionWithRetry_rejects_with_last_error_witness :
    1 ≤ defaultMaxRetries ∧
      (analyzeDimensionWithRetry "" "exposure" "hello world" "text"
        (fun n => if n = 1 then networkFailure else serverErrorResponse)
        defaultMaxRetries initialState).result =
        .rejected ⟨"HTTP 500:Internal Server Error"⟩ :=
  ⟨by decide,
    (analyzeDimensionWithRetry_rejects_with_last_error "" "exposure" "hello world" "text"
      (fun n => if n = 1 then networkFailure else serverErrorResponse)
      defaultMaxRetries initialState (by decide)).1 ⟨"HTTP 500:Internal Server Error"⟩
      (fun i h1 h2 => by
        have : i = 1 := by
          simp only [defaultMaxRetries] at h2
          omega
        subst this
        exact ⟨⟨"Failed to fetch"⟩, rfl⟩)
      rfl⟩

/-! ## The result mapping -/

/-- Reading a key that was just written gives the written value. -/
theorem getResult_setResult_self (rs : List (String × JSValue)) (k : String) (v : JSValue) :
    getResult (setResult rs k v) k = some v := by
  induction rs with
  | nil => simp [setResult, getResult]
  | cons p rest ih =>
    obtain ⟨k0, v0⟩ := p
    by_cases h : k0 = k
    · simp [setResult, getResult, h]
    · simp [setResult, getResult, h, ih]

/-- Writing a key does not change what is read at another key. -/
theorem getResult_setResult_other (rs : List (String × JSValue)) (k k2 : String) (v : JSValue)
    (h : k2 ≠ k) : getResult (setResult rs k v) k2 = getResult rs k2 := by
  induction rs with
  | nil => simp [setResult, getResult, Ne.symm h]
  | cons p rest ih =>
    obtain ⟨k0, v0⟩ := p
    by_cases h0 : k0 = k
    · subst h0
      simp [setResult, getResult, Ne.symm h]
    · by_cases h1 : k0 = k2
      · subst h1
        simp [setResult, getResult, h0]
      · simp [setResult, getResult, h0, h1, ih]

/-- Writing an existing key leaves the key list as it is. -/
theorem resultKeys_setResult (rs : List (String × JSValue)) (k : String) (v : JSValue)
    (h : k ∈ resultKeys rs) : resultKeys (setResult rs k v) = resultKeys rs := by
  induction rs with
  | nil => simp [resultKeys] at h
  | cons p rest ih =>
    obtain ⟨k0, v0⟩ := p
    by_cases h0 : k0 = k
    · simp [setResult, resultKeys, h0]
    · have hk : k ∈ resultKeys rest := by
        simp only [resultKeys, List.map_cons, List.mem_cons] at h
        rcases h with h | h
        · exact absurd h.symm h0
        · exact h
      have := ih hk
      simp only [resultKeys] at this
      simp [setResult, resultKeys, h0, this]

/-- Writing the same value twice is writing it once. -/
theorem setResult_setResult (rs : List (String × JSValue)) (k : String) (v : JSValue) :
    setResult (setResult rs k v) k v = setResult rs k v := by
  induction rs with
  | nil => simp [setResult]
  | cons p rest ih =>
    obtain ⟨k0, v0⟩ := p
    by_cases h0 : k0 = k
    · simp [setResult, h0]
    · simp [setResult, h0, ih]

/-- On a complete page the card of a dimension is found with both parts. -/
theorem dimensionCard_of_complete (page : Page) (h : page.Complete) (d : String)
    (hd : d ∈ dimensions) :
    ∃ c, dimensionCard page d = some c ∧ c.hasContent = true ∧ c.hasSpinner = true := by
  obtain ⟨c, hc, h1, h2⟩ := h d hd
  exact ⟨c, by simp [dimensionCard, hd, hc], h1, h2⟩

/-- On a complete page the reset loop runs through and clears every key. -/
theorem resetCards_of_complete (page : Page) (h : page.Complete) (keys : List String)
    (hk : ∀ k, k ∈ keys → k ∈ dimensions) (s : State) :
    resetCards page keys s =
      ({ s with analysisResults := clearAll keys s.analysisResults }, none) := by
  induction keys generalizing s with
  | nil => simp [resetCards, clearAll]
  | cons key rest ih =>
    obtain ⟨c, hc, h1, h2⟩ := dimensionCard_of_complete page h key (hk key (by simp))
    have := ih (fun k hk2 => hk k (by simp [hk2]))
      { s with analysisResults := setResult s.analysisResults key (.string "") }
    simp [resetCards, hc, h1, h2, this, clearAll]

/-- When the reset loop runs through, every card it visited is complete. -/
theorem complete_of_resetCards (page : Page) (keys : List String) (s s1 : State)
    (h : resetCards page keys s = (s1, none)) :
    ∀ k, k ∈ keys →
      ∃ c, dimensionCard page k = some c ∧ c.hasContent = true ∧ c.hasSpinner = true := by
  induction keys generalizing s with
  | nil => simp
  | cons key rest ih =>
    intro k hk
    unfold resetCards at h
    cases hc : dimensionCard page key with
    | none => simp [hc] at h
    | some c =>
      simp only [hc] at h
      by_cases h1 : c.hasContent = true
      · by_cases h2 : c.hasSpinner = true
        · simp only [h1, h2, Bool.not_true, Bool.false_eq_true, if_false] at h
          rcases List.mem_cons.1 hk with rfl | hk2
          · exact ⟨c, hc, h1, h2⟩
          · exact ih _ h k hk2
        · simp [h1, h2] at h
      · simp [h1] at h

/-- A page on which `resetDimensionCards` runs through is complete. -/
theorem complete_of_beginRun (page : Page) (s s1 : State) (h : beginRun page s = (s1, none)) :
    page.Complete := by
  intro d hd
  obtain ⟨c, hc, h1, h2⟩ := complete_of_resetCards page dimensions _ s1 h d hd
  refine ⟨c, ?_, h1, h2⟩
  simpa [dimensionCard, hd] using hc

/-- The state after the start of a run on a complete page. -/
theorem beginRun_of_complete (page : Page) (h : page.Complete) (s : State) :
    beginRun page s =
      ({ s with isAnalyzing := true, completedDimensions := 0,
                analysisResults := clearAll dimensions s.analysisResults }, none) := by
  rw [beginRun, resetDimensionCards, resetCards_of_complete page h dimensions (fun _ hk => hk)]

/-- On a complete page the body of the `forEach` stores the text of a readable
result and throws nothing. -/
theorem processResult_of_complete (page : Page) (h : page.Complete) (d : String)
    (hd : d ∈ dimensions) (r : Settled) (hr : r.readable = true) (s : State) :
    processResult page d r s =
      ({ s with analysisResults := setResult s.analysisResults d r.stored }, none) := by
  obtain ⟨c, hc, h1, h2⟩ := dimensionCard_of_complete page h d hd
  cases r with
  | rejected reason =>
    simp [processResult, updateDimensionContent, markDimensionComplete, hc, h1, h2,
      Settled.stored]
  | fulfilled value =>
    cases hv : value.getProp "content" with
    | error e =>
      cases value <;> simp [JSValue.getProp] at hv <;> simp [Settled.readable] at hr
    | ok content =>
      simp [processResult, updateDimensionContent, markDimensionComplete, hc, h1, h2,
        Settled.stored, hv, setResult_setResult]

/-- On a complete page the `forEach` stores the text of every result. -/
theorem processResults_of_complete (page : Page) (h : page.Complete)
    (results : List (String × Settled))
    (hr : ∀ p, p ∈ results → p.1 ∈ dimensions ∧ p.2.readable = true) (s : State) :
    processResults page results s =
      ({ s with analysisResults := storeAll results s.analysisResults }, none) := by
  induction results generalizing s with
  | nil => simp [processResults, storeAll]
  | cons p rest ih =>
    obtain ⟨d, r⟩ := p
    have hp := hr (d, r) (by simp)
    have hrest := ih (fun q hq => hr q (by simp [hq]))
      { s with analysisResults := setResult s.analysisResults d r.stored }
    simp [processResults, processResult_of_complete page h d hp.1 r hp.2, hrest, storeAll]

/-- On a complete page marking the cards complete throws nothing. -/
theorem markAll_of_complete (page : Page) (h : page.Complete) (keys : List String)
    (hk : ∀ k, k ∈ keys → k ∈ dimensions) : markAll page keys = none := by
  induction keys with
  | nil => simp [markAll]
  | cons key rest ih =>
    obtain ⟨c, hc, h1, h2⟩ := dimensionCard_of_complete page h key (hk key (by simp))
    simp [markAll, markDimensionComplete, hc, h1, h2, ih (fun k hk2 => hk k (by simp [hk2]))]

/-- Storing results does not touch the keys that are not among them. -/
theorem getResult_storeAll_other (results : List (String × Settled))
    (rs : List (String × JSValue)) (d : String) (h : d ∉ results.map Prod.fst) :
    getResult (storeAll results rs) d = getResult rs d := by
  induction results generalizing rs with
  | nil => simp [storeAll]
  | cons p rest ih =>
    obtain ⟨d0, r0⟩ := p
    simp only [List.map_cons, List.mem_cons, not_or] at h
    rw [storeAll, ih _ h.2, getResult_setResult_other _ _ _ _ h.1]

/-- After storing results with distinct keys, each key holds the text of its
own result. -/
theorem getResult_storeAll (results : List (String × Settled))
    (rs : List (String × JSValue)) (hn : (results.map Prod.fst).Nodup) (d : String) (r : Settled)
    (h : (d, r) ∈ results) : getResult (storeAll results rs) d = some r.stored := by
  induction results generalizing rs with
  | nil => simp at h
  | cons p rest ih =>
    obtain ⟨d0, r0⟩ := p
    simp only [List.map_cons, List.nodup_cons] at hn
    rcases List.mem_cons.1 h with heq | hmem
    · cases heq
      rw [storeAll, getResult_storeAll_other _ _ _ hn.1, getResult_setResult_self]
    · rw [storeAll]
      exact ih _ hn.2 hmem

/-- Storing results at existing keys leaves the key list as it is. -/
theorem resultKeys_storeAll (results : List (String × Settled)) (rs : List (String × JSValue))
    (h : ∀ p, p ∈ results → p.1 ∈ resultKeys rs) :
    resultKeys (storeAll results rs) = resultKeys rs := by
  induction results generalizing rs with
  | nil => simp [storeAll]
  | cons p rest ih =>
    obtain ⟨d0, r0⟩ := p
    have h0 := resultKeys_setResult rs d0 r0.stored (h (d0, r0) (by simp))
    rw [storeAll, ih, h0]
    intro q hq
    rw [h0]
    exact h q (by simp [hq])

/-- Clearing existing keys leaves the key list as it is. -/
theorem resultKeys_clearAll (keys : List String) (rs : List (String × JSValue))
    (h : ∀ k, k ∈ keys → k ∈ resultKeys rs) : resultKeys (clearAll keys rs) = resultKeys rs := by
  induction keys generalizing rs with
  | nil => simp [clearAll]
  | cons key rest ih =>
    have h0 := resultKeys_setResult rs key (.string "") (h key (by simp))
    rw [clearAll, ih, h0]
    intro q hq
    rw [h0]
    exact h q (by simp [hq])

/-! ## Settling of the six client calls -/

/-- Every call with the default number of attempts has the result
`clientResult`. -/
theorem analyzeDimensionWithRetry_result (apiBaseUrl dimension input type : String)
    (outcomes : Nat → FetchOutcome) (s : State) :
    (analyzeDimensionWithRetry apiBaseUrl dimension input type outcomes defaultMaxRetries
      s).result = clientResult outcomes :=
  retryLoop_result_congr _ _ _ _ _ _ _ _ _ _ _ _ _ _

/-- The state after a call with the default number of attempts. -/
theorem clientCall_state (apiBaseUrl dimension input type : String)
    (outcomes : Nat → FetchOutcome) (s : State) :
    (analyzeDimensionWithRetry apiBaseUrl dimension input type outcomes defaultMaxRetries
      s).state =
      { s with completedDimensions := s.completedDimensions +
          if (analyzeDimensionWithRetry apiBaseUrl dimension input type outcomes
            defaultMaxRetries s).result.isFulfilled then 1 else 0 } :=
  retryLoop_state _ _ _ _ _ _ _ _ _

/-- A settled default call is readable by the dispatcher. -/
theorem clientResult_readable (outcomes : Nat → FetchOutcome) (r : Settled)
    (h : (clientResult outcomes).settled = some r) : r.readable = true := by
  cases hc : clientResult outcomes with
  | fulfilled v =>
    obtain ⟨c, hv⟩ := retryLoop_fulfilled _ _ _ _ _ _ _ _ _ _ hc
    simp only [hc, ClientResult.settled, Option.some.injEq] at h
    subst h
    cases v <;> simp [JSValue.getProp] at hv <;> simp [Settled.readable]
  | rejected e =>
    simp only [hc, ClientResult.settled, Option.some.injEq] at h
    subst h
    simp [Settled.readable]
  | fulfilledUndefined =>
    exact absurd hc
      (retryLoop_ne_fulfilledUndefined _ _ _ _ _ _ _ _ _ (by decide) (by decide))
  | pending => simp [hc, ClientResult.settled] at h
  | outOfFuel => simp [hc, ClientResult.settled] at h

/-- The results recorded while the calls settle are those of the calls that
settle. -/
theorem settleInOrder_results (apiBaseUrl input type : String)
    (outcomes : String → Nat → FetchOutcome) (order : List String) (s : State) :
    (settleInOrder apiBaseUrl input type outcomes order s).2 =
      order.filterMap (fun d => (clientResult (outcomes d)).settled.map (fun r => (d, r))) := by
  induction order generalizing s with
  | nil => simp [settleInOrder]
  | cons d rest ih =>
    rw [settleInOrder]
    simp only [analyzeDimensionWithRetry_result]
    cases hr : (clientResult (outcomes d)).settled with
    | none => simp [hr, ih]
    | some r => simp [hr, ih]

/-- While the calls settle, nothing of the state changes but
`completedDimensions`, which counts the fulfilled calls. -/
theorem settleInOrder_state (apiBaseUrl input type : String)
    (outcomes : String → Nat → FetchOutcome) (order : List String) (s : State) :
    (settleInOrder apiBaseUrl input type outcomes order s).1 =
      { s with completedDimensions := s.completedDimensions +
          fulfilledCount (settleInOrder apiBaseUrl input type outcomes order s).2 } := by
  induction order generalizing s with
  | nil => simp [settleInOrder, fulfilledCount]
  | cons d rest ih =>
    rw [settleInOrder]
    have hstate := clientCall_state apiBaseUrl d input type (outcomes d) s
    have hres := analyzeDimensionWithRetry_result apiBaseUrl d input type (outcomes d) s
    cases hc : clientResult (outcomes d) with
    | fulfilled v =>
      rw [hres, hc] at hstate
      simp only [hres, hc, ClientResult.settled, ClientResult.isFulfilled, if_true] at hstate ⊢
      rw [ih, hstate]
      simp [fulfilledCount, Nat.add_assoc, Nat.add_comm 1]
    | rejected e =>
      rw [hres, hc] at hstate
      simp only [hres, hc, ClientResult.settled, ClientResult.isFulfilled] at hstate ⊢
      rw [ih, hstate]
      simp [fulfilledCount]
    | fulfilledUndefined =>
      exact absurd hc
        (retryLoop_ne_fulfilledUndefined _ _ _ _ _ _ _ _ _ (by decide) (by decide))
    | pending =>
      simp only [hres, hc, ClientResult.settled]
      exact ih s
    | outOfFuel =>
      simp only [hres, hc, ClientResult.settled]
      exact ih s

/-- What `Promise.allSettled` finds for a dimension: the settled result of its
call, once the call has settled. -/
theorem lookup_settled (outcomes : String → Nat → FetchOutcome) (order : List String)
    (d : String) :
    (order.filterMap
        (fun d => (clientResult (outcomes d)).settled.map (fun r => (d, r)))).lookup d =
      if d ∈ order then (clientResult (outcomes d)).settled else none := by
  induction order with
  | nil => simp
  | cons d0 rest ih =>
    by_cases h0 : d = d0
    · subst h0
      cases hr : (clientResult (outcomes d)).settled with
      | none => simp [hr, ih]
      | some r => simp [hr, List.lookup_cons]
    · have hb : (d == d0) = false := by simpa using h0
      cases hr : (clientResult (outcomes d0)).settled with
      | none => simp [hr, ih, h0]
      | some r => simp [hr, ih, h0, List.lookup_cons, hb]

/-- The results `Promise.allSettled` resolves to are in the order asked for
and are the recorded ones. -/
theorem allSettled_some (settled : List (String × Settled)) (dims : List String)
    (results : List (String × Settled)) (h : allSettled settled dims = some results) :
    results.map Prod.fst = dims ∧ ∀ p, p ∈ results → settled.lookup p.1 = some p.2 := by
  induction dims generalizing results with
  | nil =>
    simp only [allSettled, Option.some.injEq] at h
    subst h
    simp
  | cons d rest ih =>
    unfold allSettled at h
    cases h1 : settled.lookup d with
    | none => simp [h1] at h
    | some r =>
      cases h2 : allSettled settled rest with
      | none => simp [h1, h2] at h
      | some rs =>
        simp only [h1, h2, Option.some.injEq] at h
        subst h
        obtain ⟨hk, hv⟩ := ih rs h2
        refine ⟨by simp [hk], ?_⟩
        intro p hp
        rcases List.mem_cons.1 hp with rfl | hp
        · exact h1
        · exact hv p hp

/-- `Promise.allSettled` resolves when every promise has settled. -/
theorem allSettled_isSome (settled : List (String × Settled)) (dims : List String)
    (h : ∀ d, d ∈ dims → (settled.lookup d).isSome = true) :
    ∃ results, allSettled settled dims = some results := by
  induction dims with
  | nil => exact ⟨[], rfl⟩
  | cons d rest ih =>
    obtain ⟨rs, hrs⟩ := ih (fun k hk => h k (by simp [hk]))
    obtain ⟨r, hr⟩ := Option.isSome_iff_exists.1 (h d (by simp))
    exact ⟨(d, r) :: rs, by simp [allSettled, hr, hrs]⟩

/-- The six dimension names are distinct. -/
theorem dimensions_nodup : dimensions.Nodup := by decide

/-- A run on a complete page whose six calls have settled reaches
`handleAnalysisComplete` and stores the text of each result. -/
theorem startParallelAnalysis_of_allSettled (page : Page) (apiBaseUrl : String)
    (outcomes : String → Nat → FetchOutcome) (order : List String) (input type : String)
    (s : State) (hp : page.Complete) (results : List (String × Settled))
    (h : allSettled (settleInOrder apiBaseUrl input type outcomes order
      { s with isAnalyzing := true, completedDimensions := 0,
               analysisResults := clearAll dimensions s.analysisResults }).2 dimensions =
        some results) :
    startParallelAnalysis page apiBaseUrl outcomes order input type s =
      ⟨.completed, { s with isAnalyzing := false, completedDimensions := 0,
                            analysisResults :=
                              storeAll results (clearAll dimensions s.analysisResults) }⟩ := by
  obtain ⟨hkeys, hvals⟩ := allSettled_some _ _ _ h
  have hread : ∀ p, p ∈ results → p.1 ∈ dimensions ∧ p.2.readable = true := by
    intro p hp2
    refine ⟨?_, ?_⟩
    · rw [← hkeys]
      exact List.mem_map_of_mem _ hp2
    · have := hvals p hp2
      rw [settleInOrder_results, lookup_settled] at this
      split_ifs at this
      exact clientResult_readable _ _ this
  simp only [startParallelAnalysis, beginRun_of_complete page hp, h]
  rw [processResults_of_complete page hp results hread]
  simp only [handleAnalysisComplete, markAll_of_complete page hp dimensions (fun _ hk => hk),
    resetAnalyzeButton]
  rw [settleInOrder_state]

/-- A run that reaches `handleAnalysisComplete` ran on a complete page, every
call settled, and the mapping holds the text of each result. -/
theorem startParallelAnalysis_completed (page : Page) (apiBaseUrl : String)
    (outcomes : String → Nat → FetchOutcome) (order : List String) (input type : String)
    (s : State)
    (h : (startParallelAnalysis page apiBaseUrl outcomes order input type s).outcome =
      .completed) :
    ∃ results : List (String × Settled),
      results.map Prod.fst = dimensions ∧
      (∀ p, p ∈ results → (clientResult (outcomes p.1)).settled = some p.2) ∧
      (startParallelAnalysis page apiBaseUrl outcomes order input type s).state.analysisResults =
        storeAll results (clearAll dimensions s.analysisResults) := by
  cases hb : beginRun page s with
  | mk s1 err =>
    cases err with
    | some e => simp [startParallelAnalysis, hb] at h
    | none =>
      have hp := complete_of_beginRun page s s1 hb
      cases hall : allSettled (settleInOrder apiBaseUrl input type outcomes order
          { s with isAnalyzing := true, completedDimensions := 0,
                   analysisResults := clearAll dimensions s.analysisResults }).2 dimensions with
      | none =>
        simp [startParallelAnalysis, beginRun_of_complete page hp, hall] at h
      | some results =>
        obtain ⟨hkeys, hvals⟩ := allSettled_some _ _ _ hall
        refine ⟨results, hkeys, ?_, ?_⟩
        · intro p hp2
          have := hvals p hp2
          rw [settleInOrder_results, lookup_settled] at this
          split_ifs at this
          exact this
        · rw [startParallelAnalysis_of_allSettled page apiBaseUrl outcomes order input type s hp
            results hall]

/-- A run on a complete page in which every call settles reaches
`handleAnalysisComplete`, and each dimension then holds the text of the result
of its own call. -/
theorem startParallelAnalysis_entries (page : Page) (apiBaseUrl : String)
    (outcomes : String → Nat → FetchOutcome) (order : List String) (input type : String)
    (s : State) (hp : page.Complete) (ho : ∀ d, d ∈ dimensions → d ∈ order)
    (hs : ∀ d, d ∈ dimensions → ((clientResult (outcomes d)).settled).isSome = true) :
    (startParallelAnalysis page apiBaseUrl outcomes order input type s).outcome = .completed ∧
      ∀ d, d ∈ dimensions → ∃ r, (clientResult (outcomes d)).settled = some r ∧
        getResult
          (startParallelAnalysis page apiBaseUrl outcomes order input type s).state.analysisResults
          d = some r.stored := by
  obtain ⟨results, hall⟩ := allSettled_isSome
    (settleInOrder apiBaseUrl input type outcomes order
      { s with isAnalyzing := true, completedDimensions := 0,
               analysisResults := clearAll dimensions s.analysisResults }).2 dimensions
    (by
      intro d hd
      rw [settleInOrder_results, lookup_settled, if_pos (ho d hd)]
      exact hs d hd)
  have hrun := startParallelAnalysis_of_allSettled page apiBaseUrl outcomes order input type s
    hp results hall
  obtain ⟨hkeys, hvals⟩ := allSettled_some _ _ _ hall
  refine ⟨by rw [hrun], ?_⟩
  intro d hd
  have hmem : d ∈ results.map Prod.fst := by rw [hkeys]; exact hd
  obtain ⟨p, hp2, hp1⟩ := List.mem_map.1 hmem
  obtain ⟨d0, r⟩ := p
  simp only at hp1
  subst hp1
  have hv := hvals (d0, r) hp2
  rw [settleInOrder_results, lookup_settled, if_pos (ho d0 hd)] at hv
  refine ⟨r, hv, ?_⟩
  rw [hrun]
  exact getResult_storeAll results _ (by rw [hkeys]; exact dimensions_nodup) d0 r hp2

/-- A run that reaches `handleAnalysisComplete` holds, for each dimension, the
text of the settled result of its own call. -/
theorem startParallelAnalysis_completed_entry (page : Page) (apiBaseUrl : String)
    (outcomes : String → Nat → FetchOutcome) (order : List String) (input type : String)
    (s : State)
    (h : (startParallelAnalysis page apiBaseUrl outcomes order input type s).outcome =
      .completed) (d : String) (hd : d ∈ dimensions) :
    ∃ r, (clientResult (outcomes d)).settled = some r ∧
      getResult
        (startParallelAnalysis page apiBaseUrl outcomes order input type s).state.analysisResults
        d = some r.stored := by
  obtain ⟨results, hkeys, hvals, hstate⟩ :=
    startParallelAnalysis_completed page apiBaseUrl outcomes order input type s h
  have hmem : d ∈ results.map Prod.fst := by rw [hkeys]; exact hd
  obtain ⟨p, hp2, hp1⟩ := List.mem_map.1 hmem
  obtain ⟨d0, r⟩ := p
  simp only at hp1
  subst hp1
  refine ⟨r, hvals (d0, r) hp2, ?_⟩
  rw [hstate]
  exact getResult_storeAll results _ (by rw [hkeys]; exact dimensions_nodup) d0 r hp2

/-- A text includes what it starts with. -/
theorem startsWithChars_append (a b : List Char) : startsWithChars (a ++ b) a = true := by
  induction a with
  | nil => cases b <;> rfl
  | cons c cs ih => simp [startsWithChars, ih]

/-- A text includes what it ends with. -/
theorem includesChars_append (a b : List Char) : includesChars (a ++ b) b = true := by
  induction a with
  | nil =>
    cases b with
    | nil => rfl
    | cons c cs =>
      have := startsWithChars_append (c :: cs) []
      simp only [List.append_nil] at this
      simp [includesChars, this]
  | cons c cs ih => simp [includesChars, ih]

/-- The failure text includes the message of the failure. -/
theorem failureText_includes (reason : JSError) :
    jsIncludes (failureText reason) reason.message = true := by
  have := includesChars_append "Analysis failed: ".data reason.message.data
  simpa only [jsIncludes, failureText, String.data_append] using this

/-- The failure text is not the empty string. -/
theorem failureText_ne_empty (reason : JSError) : failureText reason ≠ "" := by
  intro h
  have := congrArg String.length h
  simp only [failureText, String.length_append] at this
  have h17 : "Analysis failed: ".length = 17 := by decide
  have h0 : "".length = 0 := by decide
  omega

/-- A default call whose two attempts fail is rejected with the second error. -/
theorem clientResult_of_fails (outcomes : Nat → FetchOutcome) (reason : JSError)
    (h : FailsEveryAttempt outcomes reason) : clientResult outcomes = .rejected reason := by
  obtain ⟨⟨e, h1⟩, h2⟩ := h
  simp [clientResult, analyzeDimensionWithRetry, defaultMaxRetries, retryLoop, h1, h2]

/-- A default call that gets a response is fulfilled with it. -/
theorem clientResult_of_succeeds (outcomes : Nat → FetchOutcome) (value : JSValue)
    (h : Succeeds outcomes value) : clientResult outcomes = .fulfilled value := by
  rcases h with h1 | ⟨⟨e, h1⟩, h2⟩
  · simp [clientResult, analyzeDimensionWithRetry, defaultMaxRetries, retryLoop, h1]
  · simp [clientResult, analyzeDimensionWithRetry, defaultMaxRetries, retryLoop, h1, h2]

/-- The reset loop leaves `completedDimensions` as it is. -/
theorem resetCards_completedDimensions (page : Page) (keys : List String) (s : State) :
    (resetCards page keys s).1.completedDimensions = s.completedDimensions := by
  induction keys generalizing s with
  | nil => rfl
  | cons key rest ih =>
    unfold resetCards
    cases dimensionCard page key with
    | none => rfl
    | some c =>
      simp only
      split_ifs
      · rfl
      · rfl
      · rw [ih]

/-! ## The dispatcher: stored texts, keys and progress -/

/-- C3 (counterexample): in a run where every fetch fails with
`Failed to fetch`, the text stored for `exposure` is
`Analysis failed: Failed to fetch`, which does not contain the dimension name. -/
theorem failure_text_omits_dimension_name :
    (startParallelAnalysis fullPage "" (fun _ _ => networkFailure) dimensions "hello world"
        "text" initialState).outcome = .completed ∧
      getResult
        (startParallelAnalysis fullPage "" (fun _ _ => networkFailure) dimensions "hello world"
          "text" initialState).state.analysisResults "exposure" =
        some (.string "Analysis failed: Failed to fetch") ∧
      jsIncludes "Analysis failed: Failed to fetch" "exposure" = false := by
  refine ⟨by decide, rfl, by decide⟩

/-- C3 (amended): after a completed run, a dimension whose call was rejected
with reason `r` holds the text `Analysis failed: ` followed by the message of
`r`, which includes that message and is the same for every dimension; a
dimension whose call was fulfilled holds the `content` of the returned value. -/
theorem startParallelAnalysis_stored_text (page : Page) (apiBaseUrl : String)
    (outcomes : String → Nat → FetchOutcome) (order : List String) (input type : String)
    (s s0 : State) (d : String) (hd : d ∈ dimensions)
    (h : (startParallelAnalysis page apiBaseUrl outcomes order input type s).outcome =
      .completed) :
    (∀ r, (analyzeDimensionWithRetry apiBaseUrl d input type (outcomes d) defaultMaxRetries
          s0).result = .rejected r →
        getResult (startParallelAnalysis page apiBaseUrl outcomes order input type
          s).state.analysisResults d = some (.string ("Analysis failed: " ++ r.message)) ∧
        jsIncludes ("Analysis failed: " ++ r.message) r.message = true) ∧
      (∀ v, (analyzeDimensionWithRetry apiBaseUrl d input type (outcomes d) defaultMaxRetries
          s0).result = .fulfilled v →
        ∃ content, v.getProp "content" = .ok content ∧
          getResult (startParallelAnalysis page apiBaseUrl outcomes order input type
            s).state.analysisResults d = some content) := by
  obtain ⟨r0, hr0, hget⟩ :=
    startParallelAnalysis_completed_entry page apiBaseUrl outcomes order input type s h d hd
  constructor
  · intro r hr
    rw [analyzeDimensionWithRetry_result] at hr
    rw [hr] at hr0
    simp only [ClientResult.settled, Option.some.injEq] at hr0
    subst hr0
    exact ⟨hget, failureText_includes r⟩
  · intro v hv
    obtain ⟨c, hc⟩ := retryLoop_fulfilled _ _ _ _ _ _ _ _ _ _ hv
    rw [analyzeDimensionWithRetry_result] at hv
    rw [hv] at hr0
    simp only [ClientResult.settled, Option.some.injEq] at hr0
    subst hr0
    refine ⟨c, hc, ?_⟩
    rw [hget]
    simp [Settled.stored, hc]

/-- C3 (amended) at a concrete input: every fetch fails with `Failed to fetch`. -/
theorem startParallelAnalysis_stored_text_witness :
    getResult
        (startParallelAnalysis fullPage "" (fun _ _ => networkFailure) dimensions "hello world"
          "text" initialState).state.analysisResults "inference" =
        some (.string "Analysis failed: Failed to fetch") ∧
      jsIncludes "Analysis failed: Failed to fetch" "Failed to fetch" = true :=
  (startParallelAnalysis_stored_text fullPage "" (fun _ _ => networkFailure) dimensions
    "hello world" "text" initialState initialState "inference" (by decide) (by decide)).1
    ⟨"Failed to fetch"⟩ rfl

/-- C4: after a run that reached `handleAnalysisComplete`, started from a
state whose mapping has the six dimension keys, the keys of
`state.analysisResults` are exactly the six dimensions, and the entry of every
rejected dimension is the failure text: it is present and is not the empty
string the reset left. -/
theorem startParallelAnalysis_complete_keys (page : Page) (apiBaseUrl : String)
    (outcomes : String → Nat → FetchOutcome) (order : List String) (input type : String)
    (s : State) (hkeys : resultKeys s.analysisResults = dimensions)
    (h : (startParallelAnalysis page apiBaseUrl outcomes order input type s).outcome =
      .completed) :
    resultKeys (startParallelAnalysis page apiBaseUrl outcomes order input type
        s).state.analysisResults = dimensions ∧
      ∀ d r (s0 : State), d ∈ dimensions →
        (analyzeDimensionWithRetry apiBaseUrl d input type (outcomes d) defaultMaxRetries
          s0).result = .rejected r →
        getResult (startParallelAnalysis page apiBaseUrl outcomes order input type
            s).state.analysisResults d = some (.string (failureText r)) ∧
          failureText r ≠ "" := by
  constructor
  · obtain ⟨results, hk, _, hstate⟩ :=
      startParallelAnalysis_completed page apiBaseUrl outcomes order input type s h
    have hclear : resultKeys (clearAll dimensions s.analysisResults) = dimensions := by
      rw [resultKeys_clearAll _ _ (by rw [hkeys]; exact fun _ hk2 => hk2), hkeys]
    rw [hstate, resultKeys_storeAll, hclear]
    intro p hp
    rw [hclear, ← hk]
    exact List.mem_map_of_mem _ hp
  · intro d r s0 hd hr
    obtain ⟨r0, hr0, hget⟩ :=
      startParallelAnalysis_completed_entry page apiBaseUrl outcomes order input type s h d hd
    rw [analyzeDimensionWithRetry_result] at hr
    rw [hr] at hr0
    simp only [ClientResult.settled, Option.some.injEq] at hr0
    subst hr0
    exact ⟨hget, failureText_ne_empty r⟩

/-- C4 at a concrete input: every fetch of every dimension fails. -/
theorem startParallelAnalysis_complete_keys_witness :
    resultKeys (startParallelAnalysis fullPage "" (fun _ _ => networkFailure) dimensions
        "hello world" "text" initialState).state.analysisResults =
      ["exposure", "inference", "audience", "platforms", "amplification", "manipulability"] :=
  (startParallelAnalysis_complete_keys fullPage "" (fun _ _ => networkFailure) dimensions
    "hello world" "text" initialState (by decide) (by decide)).1

/-- C5: on a complete page, when the dimensions in `F` fail on both attempts
and the others get a response, the run reaches `handleAnalysisComplete`; each
dimension in `F` holds `Analysis failed: ` followed by the message of its own
last error and each other dimension holds the `content` of its own response;
and in any other such run, with other outcomes for the other dimensions and
another settling order, a dimension with the same fetch outcomes holds the
same entry. -/
theorem startParallelAnalysis_partial_failure (page : Page) (apiBaseUrl : String)
    (outcomes : String → Nat → FetchOutcome) (order : List String) (input type : String)
    (s : State) (F : List String) (reason : String → JSError) (value : String → JSValue)
    (hp : page.Complete) (ho : ∀ d, d ∈ dimensions → d ∈ order)
    (hF : ∀ d, d ∈ dimensions → d ∈ F → FailsEveryAttempt (outcomes d) (reason d))
    (hS : ∀ d, d ∈ dimensions → d ∉ F → Succeeds (outcomes d) (value d)) :
    (startParallelAnalysis page apiBaseUrl outcomes order input type s).outcome = .completed ∧
      (∀ d, d ∈ dimensions → d ∈ F →
        getResult (startParallelAnalysis page apiBaseUrl outcomes order input type
          s).state.analysisResults d =
          some (.string ("Analysis failed: " ++ (reason d).message))) ∧
      (∀ d, d ∈ dimensions → d ∉ F →
        ∃ content, (value d).getProp "content" = .ok content ∧
          getResult (startParallelAnalysis page apiBaseUrl outcomes order input type
            s).state.analysisResults d = some content) ∧
      (∀ (page2 : Page) (apiBaseUrl2 : String) (outcomes2 : String → Nat → FetchOutcome)
        (order2 : List String) (input2 type2 : String) (s2 : State),
        (startParallelAnalysis page2 apiBaseUrl2 outcomes2 order2 input2 type2 s2).outcome =
          .completed →
        ∀ d, d ∈ dimensions → outcomes2 d = outcomes d →
          getResult (startParallelAnalysis page2 apiBaseUrl2 outcomes2 order2 input2 type2
            s2).state.analysisResults d =
          getResult (startParallelAnalysis page apiBaseUrl outcomes order input type
            s).state.analysisResults d) := by
  have hsettle : ∀ d, d ∈ dimensions → ((clientResult (outcomes d)).settled).isSome = true := by
    intro d hd
    by_cases hm : d ∈ F
    · rw [clientResult_of_fails _ _ (hF d hd hm)]
      rfl
    · rw [clientResult_of_succeeds _ _ (hS d hd hm)]
      rfl
  obtain ⟨hdone, hentries⟩ :=
    startParallelAnalysis_entries page apiBaseUrl outcomes order input type s hp ho hsettle
  refine ⟨hdone, ?_, ?_, ?_⟩
  · intro d hd hm
    obtain ⟨r, hr, hget⟩ := hentries d hd
    rw [clientResult_of_fails _ _ (hF d hd hm)] at hr
    simp only [ClientResult.settled, Option.some.injEq] at hr
    subst hr
    exact hget
  · intro d hd hm
    obtain ⟨r, hr, hget⟩ := hentries d hd
    have hc := clientResult_of_succeeds _ _ (hS d hd hm)
    obtain ⟨c, hcontent⟩ := retryLoop_fulfilled _ _ _ _ _ _ _ _ _ _ hc
    rw [hc] at hr
    simp only [ClientResult.settled, Option.some.injEq] at hr
    subst hr
    refine ⟨c, hcontent, ?_⟩
    rw [hget]
    simp [Settled.stored, hcontent]
  · intro page2 apiBaseUrl2 outcomes2 order2 input2 type2 s2 hdone2 d hd heq
    obtain ⟨r, hr, hget⟩ := hentries d hd
    obtain ⟨r2, hr2, hget2⟩ :=
      startParallelAnalysis_completed_entry page2 apiBaseUrl2 outcomes2 order2 input2 type2 s2
        hdone2 d hd
    rw [heq, hr] at hr2
    cases hr2
    rw [hget, hget2]

/-- C5 at a concrete input: `exposure` and `audience` fail on both attempts,
the other four dimensions get a response on attempt 1, and the calls settle in
the reverse order. -/
theorem startParallelAnalysis_partial_failure_witness :
    fullPage.Complete ∧
      (startParallelAnalysis fullPage ""
        (fun d _ => if d = "exposure" ∨ d = "audience" then serverErrorResponse
          else okResponse d)
        dimensions.reverse "hello world" "text" initialState).outcome = .completed :=
  ⟨fun _ _ => ⟨⟨true, true⟩, rfl, rfl, rfl⟩,
    (startParallelAnalysis_partial_failure fullPage ""
      (fun d _ => if d = "exposure" ∨ d = "audience" then serverErrorResponse else okResponse d)
      dimensions.reverse "hello world" "text" initialState ["exposure", "audience"]
      (fun _ => ⟨"HTTP 500:Internal Server Error"⟩)
      (fun d => .object [("content", .string d)])
      (fun _ _ => ⟨⟨true, true⟩, rfl, rfl, rfl⟩)
      (by decide)
      (by
        intro d _ hm
        have hd : d = "exposure" ∨ d = "audience" := by simpa using hm
        simp only [FailsEveryAttempt, hd, if_true]
        exact ⟨⟨_, rfl⟩, rfl⟩)
      (by
        intro d _ hm
        have hd : ¬ (d = "exposure" ∨ d = "audience") := by simpa using hm
        simp only [Succeeds, hd, if_false]
        exact Or.inl rfl)).1⟩

/-- C6 (counterexample): when all six calls have settled by failing,
`state.completedDimensions` is 0, not 6. -/
theorem failed_dimensions_not_counted :
    (settleInOrder "" "hello world" "text" (fun _ _ => networkFailure) dimensions
        (beginRun fullPage initialState).1).2.length = 6 ∧
      (settleInOrder "" "hello world" "text" (fun _ _ => networkFailure) dimensions
        (beginRun fullPage initialState).1).1.completedDimensions = 0 := by
  decide

/-- C6 (amended): during a run, when the calls of the dimensions in
`settledSoFar` have settled, `state.completedDimensions` is the number of them
that were fulfilled: a call that fails does not update the progress. -/
theorem settleInOrder_completedDimensions (page : Page) (apiBaseUrl input type : String)
    (outcomes : String → Nat → FetchOutcome) (settledSoFar : List String) (s : State) :
    (settleInOrder apiBaseUrl input type outcomes settledSoFar
        (beginRun page s).1).1.completedDimensions =
      fulfilledCount
        (settleInOrder apiBaseUrl input type outcomes settledSoFar (beginRun page s).1).2 ∧
      fulfilledCount
        (settleInOrder apiBaseUrl input type outcomes settledSoFar (beginRun page s).1).2 ≤
        (settleInOrder apiBaseUrl input type outcomes settledSoFar
          (beginRun page s).1).2.length := by
  constructor
  · rw [settleInOrder_state]
    have : (beginRun page s).1.completedDimensions = 0 := by
      rw [beginRun, resetDimensionCards, resetCards_completedDimensions]
    simp [this]
  · generalize (settleInOrder apiBaseUrl input type outcomes settledSoFar
      (beginRun page s).1).2 = l
    induction l with
    | nil => simp [fulfilledCount]
    | cons p rest ih =>
      obtain ⟨d, r⟩ := p
      cases r <;> simp [fulfilledCount] <;> omega

/-! ## Progress display -/

/-- C8: with `totalDimensions = 6` and a completed count `c ≤ 6`, the display
shows `round(100 * c / 6)` percent and `max(5, round(2 * (6 - c)))` seconds,
halves rounded up; these are the values 0, 17, 33, 50, 67, 83, 100 and
12, 10, 8, 6, 5, 5, 5; for `c = 3` the display shows 50 and 6. -/
theorem updateAnalysisProgress_values (s : State) (h6 : s.totalDimensions = 6)
    (hc : s.completedDimensions ≤ 6) :
    (updateAnalysisProgress s).progress =
        ⌊(100 * (s.completedDimensions : ℚ) / 6) + 1 / 2⌋ ∧
      (updateAnalysisProgress s).timeEstimate =
        max 5 ⌊(2 * (6 - (s.completedDimensions : ℚ))) + 1 / 2⌋ ∧
      (updateAnalysisProgress s).progress =
        [0, 17, 33, 50, 67, 83, 100].getD s.completedDimensions 0 ∧
      (updateAnalysisProgress s).timeEstimate =
        [12, 10, 8, 6, 5, 5, 5].getD s.completedDimensions 0 ∧
      (s.completedDimensions = 3 →
        (updateAnalysisProgress s).progress = 50 ∧ (updateAnalysisProgress s).timeEstimate = 6 ∧
        (updateAnalysisProgress s).label = "ANALYZING... 50% (~6s remaining)") := by
  obtain ⟨page, inp, ty, res, an, ev, c, t⟩ := s
  simp only at h6 hc
  subst h6
  have key : ∀ k : Nat, k ≤ 6 →
      mathRound (((k : ℚ) / ((6 : Nat) : ℚ)) * 100) = ⌊(100 * (k : ℚ) / 6) + 1 / 2⌋ ∧
      mathRound ((((6 : Nat) : ℚ) - (k : ℚ)) * 2) = ⌊(2 * (6 - (k : ℚ))) + 1 / 2⌋ := by
    intro k _
    constructor
    · unfold mathRound
      congr 2
      push_cast
      ring
    · unfold mathRound
      congr 2
      push_cast
      ring
  simp only [updateAnalysisProgress, (key c hc).1, (key c hc).2]
  interval_cases c <;> norm_num [Int.floor_eq_iff]
  decide

/-- C8 at a concrete input: three of six dimensions completed. -/
theorem updateAnalysisProgress_values_witness :
    (updateAnalysisProgress { initialState with completedDimensions := 3 }).progress = 50 ∧
      (updateAnalysisProgress { initialState with completedDimensions := 3 }).timeEstimate = 6 ∧
      (updateAnalysisProgress { initialState with completedDimensions := 3 }).label =
        "ANALYZING... 50% (~6s remaining)" :=
  (updateAnalysisProgress_values { initialState with completedDimensions := 3 } rfl
    (by decide)).2.2.2.2 rfl

/-! ## Input validation -/

/-- Every fetch of the retry loop carries the input and type it was called
with. -/
theorem retryLoop_trace_input (apiBaseUrl dimension input type : String)
    (outcomes : Nat → FetchOutcome) (maxRetries fuel attempt : Nat) (s : State)
    (e : ClientEvent)
    (h : e ∈ (retryLoop apiBaseUrl dimension input type outcomes maxRetries fuel attempt
      s).trace) :
    (∃ ms, e = .wait ms) ∨ ∃ url n, e = .fetch url input type n := by
  induction fuel generalizing attempt with
  | zero =>
    unfold retryLoop at h
    split_ifs at h <;> simp at h
  | succ fuel ih =>
    by_cases h1 : attempt ≤ maxRetries
    · rw [retryLoop_succ _ _ _ _ _ _ _ _ _ h1] at h
      cases hb : attemptBody (outcomes attempt) with
      | hangs =>
        simp only [hb, List.mem_singleton] at h
        exact Or.inr ⟨_, _, h⟩
      | returned result =>
        simp only [hb, List.mem_singleton] at h
        exact Or.inr ⟨_, _, h⟩
      | threw error =>
        by_cases h2 : attempt = maxRetries
        · simp only [hb, if_pos h2, List.mem_singleton] at h
          exact Or.inr ⟨_, _, h⟩
        · simp only [hb, if_neg h2, List.mem_cons] at h
          rcases h with h | h | h
          · exact Or.inr ⟨_, _, h⟩
          · exact Or.inl ⟨_, h⟩
          · exact ih (attempt + 1) h
    · rw [retryLoop_done _ _ _ _ _ _ _ _ _ h1] at h
      simp at h

/-- Every fetch of a run carries the input and type the run was started
with. -/
theorem runEvents_input (page : Page) (apiBaseUrl : String)
    (outcomes : String → Nat → FetchOutcome) (input type : String) (s : State)
    (e : ClientEvent) (h : e ∈ runEvents page apiBaseUrl outcomes input type s) :
    (∃ ms, e = .wait ms) ∨ ∃ url n, e = .fetch url input type n := by
  unfold runEvents at h
  split at h
  · simp at h
  · obtain ⟨d, _, hd⟩ := List.mem_flatMap.1 h
    exact retryLoop_trace_input _ _ _ _ _ _ _ _ _ _ hd

/-- The empty string has no code units. -/
theorem utf16Length_empty : utf16Length "" = 0 := by decide

/-- C11: with type `text`, a trimmed input of fewer than 10 code units (the
empty one included) makes `handleAnalyze` show an error and return: no run is
started, no fetch is issued and `state` is unchanged; a trimmed input of at
least 10 code units starts `startParallelAnalysis` with the trimmed input and
type `text`, `state.currentInput` holding the trimmed input, and every fetch
of the run carries the trimmed input. -/
theorem handleAnalyze_text (parseProtocol : String → Option String) (page : Page)
    (apiBaseUrl : String) (outcomes : String → Nat → FetchOutcome) (order : List String)
    (textAreaValue urlFieldValue : String) (s : State) (htype : s.currentType = "text") :
    (utf16Length (jsTrim textAreaValue) < 10 →
      (handleAnalyze parseProtocol page apiBaseUrl outcomes order textAreaValue urlFieldValue
          s).error =
        some (if jsTrim textAreaValue = "" then "Please provide input content or URL"
          else "Text content is too short. Please provide at least 10 characters.") ∧
      (handleAnalyze parseProtocol page apiBaseUrl outcomes order textAreaValue urlFieldValue
          s).started = none ∧
      (handleAnalyze parseProtocol page apiBaseUrl outcomes order textAreaValue urlFieldValue
          s).run = none ∧
      (handleAnalyze parseProtocol page apiBaseUrl outcomes order textAreaValue urlFieldValue
          s).events = [] ∧
      (handleAnalyze parseProtocol page apiBaseUrl outcomes order textAreaValue urlFieldValue
          s).state = s) ∧
    (10 ≤ utf16Length (jsTrim textAreaValue) →
      (handleAnalyze parseProtocol page apiBaseUrl outcomes order textAreaValue urlFieldValue
          s).error = none ∧
      (handleAnalyze parseProtocol page apiBaseUrl outcomes order textAreaValue urlFieldValue
          s).started = some (jsTrim textAreaValue, "text") ∧
      (handleAnalyze parseProtocol page apiBaseUrl outcomes order textAreaValue urlFieldValue
          s).run =
        some (startParallelAnalysis page apiBaseUrl outcomes order (jsTrim textAreaValue) "text"
          { s with currentInput := jsTrim textAreaValue }) ∧
      ∀ e, e ∈ (handleAnalyze parseProtocol page apiBaseUrl outcomes order textAreaValue
          urlFieldValue s).events →
        (∃ ms, e = .wait ms) ∨ ∃ url n, e = .fetch url (jsTrim textAreaValue) "text" n) := by
  have hne : ¬ ("text" = "url") := by decide
  constructor
  · intro hlen
    by_cases hempty : jsTrim textAreaValue = ""
    · simp [handleAnalyze, htype, hempty]
    · simp [handleAnalyze, htype, hempty, hlen]
  · intro hlen
    have hempty : jsTrim textAreaValue ≠ "" := by
      intro h
      rw [h, utf16Length_empty] at hlen
      omega
    have hlt : ¬ utf16Length (jsTrim textAreaValue) < 10 := by omega
    refine ⟨?_, ?_, ?_, ?_⟩
    · simp [handleAnalyze, htype, hempty, hlt]
    · simp [handleAnalyze, htype, hempty, hlt]
    · simp [handleAnalyze, htype, hempty, hlt]
    · intro e he
      simp only [handleAnalyze, htype, hempty, hlt, if_true, if_false, hne, false_and,
        and_false] at he
      exact runEvents_input _ _ _ _ _ _ e he

/-- C11 at concrete inputs: the text `  too short  ` is rejected and the text
` long enough text ` starts a run with `long enough text`. -/
theorem handleAnalyze_text_witness :
    (utf16Length (jsTrim "  too short  ") < 10 ∧
      (handleAnalyze exampleParseProtocol fullPage "" (fun _ _ => okResponse "fine") dimensions
        "  too short  " "" initialState).started = none) ∧
      (10 ≤ utf16Length (jsTrim " long enough text ") ∧
        (handleAnalyze exampleParseProtocol fullPage "" (fun _ _ => okResponse "fine") dimensions
          " long enough text " "" initialState).started = some ("long enough text", "text")) :=
  ⟨⟨by decide,
      ((handleAnalyze_text exampleParseProtocol fullPage "" (fun _ _ => okResponse "fine")
        dimensions "  too short  " "" initialState rfl).1 (by decide)).2.1⟩,
    ⟨by decide,
      ((handleAnalyze_text exampleParseProtocol fullPage "" (fun _ _ => okResponse "fine")
        dimensions " long enough text " "" initialState rfl).2 (by decide)).2.1⟩⟩

/-- C12: `isValidURL(s)` is true exactly when `new URL(s)` succeeds with the
protocol `http:` or `https:`; with type `url`, `handleAnalyze` starts a run
exactly when the trimmed input is not empty and `isValidURL` holds for it;
for a parser that reads `ftp://example.com` as `ftp:` the input
`ftp://example.com` is rejected with an error and no fetch, and for a parser
that reads `http://example.com` as `http:` the input `http://example.com`
starts a run. -/
theorem handleAnalyze_url (parseProtocol : String → Option String) (page : Page)
    (apiBaseUrl : String) (outcomes : String → Nat → FetchOutcome) (order : List String)
    (textAreaValue urlFieldValue : String) (s : State) (htype : s.currentType = "url") :
    (∀ str, isValidURL parseProtocol str = true ↔
        (parseProtocol str = some "http:" ∨ parseProtocol str = some "https:")) ∧
      ((handleAnalyze parseProtocol page apiBaseUrl outcomes order textAreaValue urlFieldValue
          s).started ≠ none ↔
        (jsTrim urlFieldValue ≠ "" ∧ isValidURL parseProtocol (jsTrim urlFieldValue) = true)) ∧
      (parseProtocol "ftp://example.com" = some "ftp:" → urlFieldValue = "ftp://example.com" →
        (handleAnalyze parseProtocol page apiBaseUrl outcomes order textAreaValue urlFieldValue
            s).error =
          some "Please enter a valid URL (must start with http:// or https://)" ∧
        (handleAnalyze parseProtocol page apiBaseUrl outcomes order textAreaValue urlFieldValue
            s).started = none ∧
        (handleAnalyze parseProtocol page apiBaseUrl outcomes order textAreaValue urlFieldValue
            s).events = [] ∧
        (handleAnalyze parseProtocol page apiBaseUrl outcomes order textAreaValue urlFieldValue
            s).state = s) ∧
      (parseProtocol "http://example.com" = some "http:" → urlFieldValue = "http://example.com" →
        (handleAnalyze parseProtocol page apiBaseUrl outcomes order textAreaValue urlFieldValue
            s).error = none ∧
        (handleAnalyze parseProtocol page apiBaseUrl outcomes order textAreaValue urlFieldValue
            s).started = some ("http://example.com", "url")) := by
  have hne : ¬ ("url" = "text") := by decide
  refine ⟨?_, ?_, ?_, ?_⟩
  · intro str
    unfold isValidURL
    cases parseProtocol str with
    | none => simp
    | some protocol => simp
  · by_cases hempty : jsTrim urlFieldValue = ""
    · simp [handleAnalyze, htype, hne, hempty]
    · cases hv : isValidURL parseProtocol (jsTrim urlFieldValue) with
      | false => simp [handleAnalyze, htype, hne, hempty, hv]
      | true => simp [handleAnalyze, htype, hne, hempty, hv]
  · intro hftp hval
    subst hval
    have htrim : jsTrim "ftp://example.com" = "ftp://example.com" := by decide
    have hv : isValidURL parseProtocol "ftp://example.com" = false := by
      simp [isValidURL, hftp]
    have hnonempty : ¬ ("ftp://example.com" = "") := by decide
    simp [handleAnalyze, htype, hne, htrim, hv, hnonempty]
  · intro hhttp hval
    subst hval
    have htrim : jsTrim "http://example.com" = "http://example.com" := by decide
    have hv : isValidURL parseProtocol "http://example.com" = true := by
      simp [isValidURL, hhttp]
    have hnonempty : ¬ ("http://example.com" = "") := by decide
    simp [handleAnalyze, htype, hne, htrim, hv, hnonempty]

/-- C12 at concrete inputs, with the example parser: `ftp://example.com` is
rejected and `http://example.com` starts a run. -/
theorem handleAnalyze_url_witness :
    (exampleParseProtocol "ftp://example.com" = some "ftp:" ∧
      (handleAnalyze exampleParseProtocol fullPage "" (fun _ _ => okResponse "fine") dimensions
        "" "ftp://example.com" { initialState with currentType := "url" }).started = none) ∧
      (exampleParseProtocol "http://example.com" = some "http:" ∧
        (handleAnalyze exampleParseProtocol fullPage "" (fun _ _ => okResponse "fine") dimensions
          "" "http://example.com" { initialState with currentType := "url" }).started =
          some ("http://example.com", "url")) :=
  ⟨⟨by decide,
      ((handleAnalyze_url exampleParseProtocol fullPage "" (fun _ _ => okResponse "fine")
        dimensions "" "ftp://example.com" { initialState with currentType := "url" }
        rfl).2.2.1 (by decide) rfl).2.1⟩,
    ⟨by decide,
      ((handleAnalyze_url exampleParseProtocol fullPage "" (fun _ _ => okResponse "fine")
        dimensions "" "http://example.com" { initialState with currentType := "url" }
        rfl).2.2.2 (by decide) rfl).2⟩⟩

/-! ## The Express analyze route -/

/-- A `POST` whose body is `undefined` or `null` makes the destructuring of
`req.body` throw: the route answers `500` without calling upstream. -/
theorem serverAnalyze_unreadable_body (dimension : String) (upstream : Upstream) (now : String) :
    (serverAnalyze ⟨"POST", dimension, .undefined⟩ upstream now).1.status = 500 ∧
      (serverAnalyze ⟨"POST", dimension, .undefined⟩ upstream now).2 = false ∧
      (serverAnalyze ⟨"POST", dimension, .null⟩ upstream now).1.status = 500 ∧
      (serverAnalyze ⟨"POST", dimension, .null⟩ upstream now).2 = false := by
  simp [serverAnalyze, JSValue.getProp]

/-- C14: the route answers `405` to every method other than `POST`; to a
`POST` whose parsed body has the properties `input` and `type` (absent ones
read as `undefined`) it answers `400` when the dimension is not one of the six
or when `input` or `type` is missing or empty (falsy); otherwise `500` with an
error body when the upstream call throws and `200` with the content, the
requested dimension and the timestamp when it succeeds; and no upstream call
is made on any `405` or `400` response. -/
theorem serverAnalyze_status (req : Request) (upstream : Upstream) (now : String) :
    (req.method ≠ "POST" →
        (serverAnalyze req upstream now).1.status = 405 ∧
        (serverAnalyze req upstream now).2 = false) ∧
      (∀ input type, req.method = "POST" → req.body.getProp "input" = .ok input →
        req.body.getProp "type" = .ok type →
        ((req.dimension ∉ dimensions ∨ input.truthy = false ∨ type.truthy = false) →
          (serverAnalyze req upstream now).1.status = 400 ∧
          (serverAnalyze req upstream now).2 = false) ∧
        (req.dimension ∈ dimensions → input.truthy = true → type.truthy = true →
          (∀ e, upstream = .error e →
            (serverAnalyze req upstream now).1.status = 500 ∧
            (serverAnalyze req upstream now).1.body =
              .error ("Failed to analyze " ++ req.dimension ++ ":" ++ e.message)) ∧
          (∀ result, upstream = .ok result →
            (serverAnalyze req upstream now).1.status = 200 ∧
            (serverAnalyze req upstream now).1.body = .content result req.dimension now))) ∧
      (((serverAnalyze req upstream now).1.status = 405 ∨
          (serverAnalyze req upstream now).1.status = 400) →
        (serverAnalyze req upstream now).2 = false) := by
  refine ⟨?_, ?_, ?_⟩
  · intro hm
    simp [serverAnalyze, hm]
  · intro input type hm hi ht
    constructor
    · intro h
      by_cases hd : req.dimension ∈ dimensions
      · have h2 : input.truthy = false ∨ type.truthy = false := by
          rcases h with h | h
          · exact absurd hd h
          · exact h
        simp [serverAnalyze, hm, hi, ht, validDimensionsIncludes, hd, h2]
      · simp [serverAnalyze, hm, hi, ht, validDimensionsIncludes, hd]
    · intro hd hin hty
      constructor
      · intro e he
        simp [serverAnalyze, hm, hi, ht, validDimensionsIncludes, hd, hin, hty, he]
      · intro result hr
        simp [serverAnalyze, hm, hi, ht, validDimensionsIncludes, hd, hin, hty, hr]
  · intro hs
    by_cases hm : req.method = "POST"
    · cases hi : req.body.getProp "input" with
      | error e => simp [serverAnalyze, hm, hi]
      | ok input =>
        cases ht : req.body.getProp "type" with
        | error e => simp [serverAnalyze, hm, hi, ht]
        | ok type =>
          by_cases hd : req.dimension ∈ dimensions
          · by_cases h2 : input.truthy = false ∨ type.truthy = false
            · simp [serverAnalyze, hm, hi, ht, validDimensionsIncludes, hd, h2]
            · cases hu : upstream with
              | error e =>
                simp [serverAnalyze, hm, hi, ht, validDimensionsIncludes, hd, h2, hu] at hs
              | ok result =>
                simp [serverAnalyze, hm, hi, ht, validDimensionsIncludes, hd, h2, hu] at hs
          · simp [serverAnalyze, hm, hi, ht, validDimensionsIncludes, hd]
    · simp [serverAnalyze, hm]

/-- C14 at concrete inputs: a `GET` gets `405`, and a `POST` for `exposure`
with a well-formed body gets `200` when upstream succeeds. -/
theorem serverAnalyze_status_witness :
    (serverAnalyze ⟨"GET", "exposure", sampleBody⟩ (.ok (.string "analysis")) "now").1.status
        = 405 ∧
      (serverAnalyze ⟨"POST", "exposure", sampleBody⟩ (.ok (.string "analysis"))
        "now").1.status = 200 :=
  ⟨((serverAnalyze_status ⟨"GET", "exposure", sampleBody⟩ (.ok (.string "analysis")) "now").1
      (by decide)).1,
    ((((serverAnalyze_status ⟨"POST", "exposure", sampleBody⟩ (.ok (.string "analysis"))
      "now").2.1 (.string "hello world") (.string "text") rfl rfl rfl).2 (by decide) rfl rfl).2
        (.string "analysis") rfl).1⟩

/-! ## The attempt timeout -/

/-- C15 (evaluation at the failing input): the options of the fetch carry no
signal, so the timer of the attempt leaves an unanswered fetch unanswered
(with the signal of the aborted controller it would be rejected); a call
whose first fetch is never answered makes that one fetch and stays pending,
and so does the run that waits for it. -/
theorem unanswered_fetch_stays_pending :
    (attemptFetchInit "hello world" "text").signal = none ∧
      fetchAfterTimeout (attemptFetchInit "hello world" "text") .pending = .pending ∧
      fetchAfterTimeout { attemptFetchInit "hello world" "text" with signal := some ⟨true⟩ }
        .pending = .rejected ⟨"signal is aborted without reason"⟩ ∧
      (analyzeDimensionWithRetry "" "exposure" "hello world" "text" (fun _ => .pending)
        defaultMaxRetries initialState).result = .pending ∧
      (analyzeDimensionWithRetry "" "exposure" "hello world" "text" (fun _ => .pending)
        defaultMaxRetries initialState).trace =
        [.fetch "/api/analyze/exposure" "hello world" "text" 1] ∧
      (startParallelAnalysis fullPage "" (fun _ _ => .pending) dimensions "hello world" "text"
        initialState).outcome = .pending :=
  ⟨rfl, rfl, rfl, rfl, rfl, by decide⟩

/-! ## The PDF endpoint -/

/-- A sequence of two steps succeeds exactly when both do. -/
theorem bind_eq_ok {α β : Type} (x : Except JSError α) (f : α → Except JSError β) (b : β) :
    (x >>= f) = .ok b ↔ ∃ a, x = .ok a ∧ f a = .ok b := by
  cases x with
  | error e => simp [bind, Except.bind]
  | ok a => simp [bind, Except.bind]

/-- A truthy value has every property readable. -/
theorem getProp_of_truthy (v : JSValue) (key : String) (h : v.truthy = true) :
    v.getProp key = .ok (jsProp v key) := by
  cases v <;> simp [JSValue.truthy] at h <;> simp [JSValue.getProp, jsProp]

/-- The loop of `addText` only appends lines and leaves the call log and the
copyright line alone. -/
theorem addTextLines_append (pageHeight : ℚ) (fontSize : Nat) (isBold : Bool)
    (lines : List String) (doc : PdfDoc) :
    ∃ new, (addTextLines pageHeight fontSize isBold lines doc).lines = doc.lines ++ new ∧
      (addTextLines pageHeight fontSize isBold lines doc).calls = doc.calls := by
  induction lines generalizing doc with
  | nil => exact ⟨[], by simp [addTextLines]⟩
  | cons line rest ih =>
    rw [addTextLines]
    by_cases hy : doc.yPosition > pageHeight - pdfMargin
    · simp only [hy, if_true]
      obtain ⟨new, h1, h2⟩ := ih
        { doc with page := doc.page + 1,
                   lines := doc.lines ++ [⟨line, pdfMargin, doc.page + 1, fontSize, isBold⟩],
                   yPosition := pdfMargin + pdfLineHeight }
      exact ⟨⟨line, pdfMargin, doc.page + 1, fontSize, isBold⟩ :: new, by rw [h1]; simp, h2⟩
    · simp only [hy, if_false]
      obtain ⟨new, h1, h2⟩ := ih
        { doc with lines := doc.lines ++ [⟨line, doc.yPosition, doc.page, fontSize, isBold⟩],
                   yPosition := doc.yPosition + pdfLineHeight }
      exact ⟨⟨line, doc.yPosition, doc.page, fontSize, isBold⟩ :: new, by rw [h1]; simp, h2⟩

/-- The loop of `addText` keeps a document within the margins. -/
theorem addTextLines_within (pageHeight : ℚ) (h40 : 40 ≤ pageHeight) (fontSize : Nat)
    (isBold : Bool) (lines : List String) (doc : PdfDoc)
    (h : doc.WithinMargins pageHeight) :
    (addTextLines pageHeight fontSize isBold lines doc).WithinMargins pageHeight := by
  induction lines generalizing doc with
  | nil => simpa [addTextLines] using h
  | cons line rest ih =>
    rw [addTextLines]
    obtain ⟨hy0, hl⟩ := h
    apply ih
    by_cases hy : doc.yPosition > pageHeight - pdfMargin
    · simp only [hy, if_true]
      refine ⟨by simp [pdfMargin, pdfLineHeight], ?_⟩
      intro l hmem
      rcases List.mem_append.1 hmem with hm | hm
      · exact hl l hm
      · simp only [List.mem_singleton] at hm
        subst hm
        simp only [pdfMargin] at *
        constructor <;> linarith
    · simp only [hy, if_false]
      refine ⟨by simp only [pdfMargin, pdfLineHeight] at *; linarith, ?_⟩
      intro l hmem
      rcases List.mem_append.1 hmem with hm | hm
      · exact hl l hm
      · simp only [List.mem_singleton] at hm
        subst hm
        simp only [pdfMargin, not_lt, gt_iff_lt] at *
        exact ⟨hy0, hy⟩

/-- The lines the loop of `addText` appends are within the margins when the
loop starts on or below the top margin. -/
theorem addTextLines_new (pageHeight : ℚ) (h40 : 40 ≤ pageHeight) (fontSize : Nat)
    (isBold : Bool) (lines : List String) (doc : PdfDoc) (h : pdfMargin ≤ doc.yPosition) :
    ∃ new, (addTextLines pageHeight fontSize isBold lines doc).lines = doc.lines ++ new ∧
      new.map DrawnLine.text = lines ∧
      (∀ l, l ∈ new → pdfMargin ≤ l.y ∧ l.y ≤ pageHeight - pdfMargin) ∧
      pdfMargin ≤ (addTextLines pageHeight fontSize isBold lines doc).yPosition := by
  induction lines generalizing doc with
  | nil => exact ⟨[], by simp [addTextLines], rfl, by simp, by simpa [addTextLines] using h⟩
  | cons line rest ih =>
    rw [addTextLines]
    by_cases hy : doc.yPosition > pageHeight - pdfMargin
    · simp only [hy, if_true]
      obtain ⟨new, h1, h2, h3, h4⟩ := ih
        { doc with page := doc.page + 1,
                   lines := doc.lines ++ [⟨line, pdfMargin, doc.page + 1, fontSize, isBold⟩],
                   yPosition := pdfMargin + pdfLineHeight }
        (by simp [pdfMargin, pdfLineHeight])
      refine ⟨⟨line, pdfMargin, doc.page + 1, fontSize, isBold⟩ :: new, by rw [h1]; simp,
        by simp [h2], ?_, h4⟩
      intro l hl
      rcases List.mem_cons.1 hl with rfl | hl
      · simp only [pdfMargin] at *
        constructor <;> linarith
      · exact h3 l hl
    · simp only [hy, if_false]
      obtain ⟨new, h1, h2, h3, h4⟩ := ih
        { doc with lines := doc.lines ++ [⟨line, doc.yPosition, doc.page, fontSize, isBold⟩],
                   yPosition := doc.yPosition + pdfLineHeight }
        (by simp only [pdfMargin, pdfLineHeight] at *; linarith)
      refine ⟨⟨line, doc.yPosition, doc.page, fontSize, isBold⟩ :: new, by rw [h1]; simp,
        by simp [h2], ?_, h4⟩
      intro l hl
      rcases List.mem_cons.1 hl with rfl | hl
      · simp only [pdfMargin, not_lt, gt_iff_lt] at *
        exact ⟨h, hy⟩
      · exact h3 l hl

/-- A successful `addText` logs its call, appends lines within the margins and
leaves `yPosition` on or below the top margin. -/
theorem addText_ok (env : PdfEnv) (h40 : 40 ≤ env.pageHeight) (text : JSValue)
    (fontSize : Nat) (isBold : Bool) (doc d : PdfDoc) (hy : pdfMargin ≤ doc.yPosition)
    (h : addText env text fontSize isBold doc = .ok d) :
    d.calls = doc.calls ++ [(text, fontSize, isBold)] ∧
      pdfMargin ≤ d.yPosition ∧
      ∃ new, d.lines = doc.lines ++ new ∧
        ∀ l, l ∈ new → pdfMargin ≤ l.y ∧ l.y ≤ env.pageHeight - pdfMargin := by
  unfold addText at h
  cases hs : env.splitTextToSize text fontSize isBold (env.pageWidth - 2 * pdfMargin) with
  | error e => simp [hs] at h
  | ok lines =>
    simp only [hs, Except.ok.injEq] at h
    subst h
    obtain ⟨new, _, hcalls⟩ := addTextLines_append env.pageHeight fontSize isBold lines
      { doc with calls := doc.calls ++ [(text, fontSize, isBold)] }
    obtain ⟨new2, h1, _, h3, h4⟩ := addTextLines_new env.pageHeight h40 fontSize isBold lines
      { doc with calls := doc.calls ++ [(text, fontSize, isBold)] } hy
    refine ⟨hcalls, ?_, new2, h1, h3⟩
    simp only [pdfMargin] at *
    linarith

/-- A successful `addText` keeps a document within the margins. -/
theorem addText_within (env : PdfEnv) (h40 : 40 ≤ env.pageHeight) (text : JSValue)
    (fontSize : Nat) (isBold : Bool) (doc d : PdfDoc)
    (hw : doc.WithinMargins env.pageHeight)
    (h : addText env text fontSize isBold doc = .ok d) :
    d.WithinMargins env.pageHeight ∧ d.calls = doc.calls ++ [(text, fontSize, isBold)] := by
  obtain ⟨hc, hy, new, hl, hb⟩ := addText_ok env h40 text fontSize isBold doc d hw.1 h
  refine ⟨⟨hy, ?_⟩, hc⟩
  intro l hmem
  rw [hl] at hmem
  rcases List.mem_append.1 hmem with hm | hm
  · exact hw.2 l hm
  · exact hb l hm

/-- Moving `yPosition` down keeps a document within the margins. -/
theorem within_advance (pageHeight : ℚ) (doc : PdfDoc) (k : ℚ) (hk : 0 ≤ k)
    (hw : doc.WithinMargins pageHeight) :
    PdfDoc.WithinMargins pageHeight { doc with yPosition := doc.yPosition + k } :=
  ⟨by have := hw.1; simp only at *; linarith, hw.2⟩

/-- The sections keep a document within the margins and make exactly the calls
of the sections whose result passes the condition, in order. -/
theorem addSections_within (env : PdfEnv) (h40 : 40 ≤ env.pageHeight) (results : JSValue)
    (sections : List (String × String)) (doc d : PdfDoc)
    (hw : doc.WithinMargins env.pageHeight)
    (h : addSections env results sections doc = .ok d) :
    d.WithinMargins env.pageHeight ∧
      d.calls = doc.calls ++ sectionCalls env results sections := by
  induction sections generalizing doc with
  | nil =>
    simp only [addSections, Except.ok.injEq] at h
    subst h
    exact ⟨hw, by simp [sectionCalls]⟩
  | cons sec rest ih =>
    obtain ⟨key, title⟩ := sec
    unfold addSections at h
    cases hp : results.getProp key with
    | error e => simp [hp] at h
    | ok result =>
      have hprop : jsProp results key = result := by simp [jsProp, hp]
      simp only [hp] at h
      by_cases hc : sectionCondition env result = true
      · simp only [hc, if_true] at h
        cases h1 : addText env (.string title) 14 true doc with
        | error e => simp [h1] at h
        | ok doc1 =>
          simp only [h1] at h
          obtain ⟨hw1, hc1⟩ := addText_within env h40 _ _ _ doc doc1 hw h1
          cases h2 : addText env result 11 false doc1 with
          | error e => simp [h2] at h
          | ok doc2 =>
            simp only [h2] at h
            obtain ⟨hw2, hc2⟩ := addText_within env h40 _ _ _ doc1 doc2 hw1 h2
            obtain ⟨hw3, hc3⟩ := ih _ (within_advance _ doc2 3 (by norm_num) hw2) h
            refine ⟨hw3, ?_⟩
            rw [hc3]
            simp only [hc2, hc1]
            simp [sectionCalls, List.filter_cons, hprop, hc]
      · simp only [hc, if_false] at h
        obtain ⟨hw3, hc3⟩ := ih doc hw h
        refine ⟨hw3, ?_⟩
        rw [hc3]
        simp [sectionCalls, List.filter_cons, hprop, hc]

/-- A document the handler finishes is within the margins, and its calls of
`addText` are the header, the sections that pass the condition, in order, and
the trailer. -/
theorem buildPdf_within (env : PdfEnv) (h40 : 40 ≤ env.pageHeight)
    (content results timestamp footerText : JSValue) (d : PdfDoc)
    (h : buildPdf env content results timestamp footerText = .ok d) :
    d.WithinMargins env.pageHeight ∧
      d.calls = headerCalls env content timestamp ++ sectionCalls env results pdfSections ++
        trailerCalls footerText := by
  simp only [buildPdf, bind_eq_ok, pure, Except.pure, Except.ok.injEq] at h
  obtain ⟨d1, h1, d2, h2, d3, h3, d4, h4, d5, h5, d6, h6, d8, h8, d9, h9, d10, h10, hd⟩ := h
  have hw0 : PdfDoc.WithinMargins env.pageHeight ⟨20, 1, [], [], none⟩ :=
    ⟨by simp [pdfMargin], by simp⟩
  obtain ⟨hw1, hc1⟩ := addText_within env h40 _ _ _ _ d1 hw0 h1
  obtain ⟨hw2, hc2⟩ := addText_within env h40 _ _ _ _ d2 hw1 h2
  obtain ⟨hw3, hc3⟩ := addText_within env h40 _ _ _ _ d3 hw2 h3
  obtain ⟨hw4, hc4⟩ := addText_within env h40 _ _ _ _ d4
    (within_advance _ d3 10 (by norm_num) hw3) h4
  obtain ⟨hw5, hc5⟩ := addText_within env h40 _ _ _ _ d5 hw4 h5
  obtain ⟨hw6, hc6⟩ := addSections_within env h40 results pdfSections _ d6
    (within_advance _ d5 5 (by norm_num) hw5) h6
  have hw7 : PdfDoc.WithinMargins env.pageHeight
      (if d6.yPosition > env.pageHeight - 60 then
        { d6 with page := d6.page + 1, yPosition := pdfMargin }
      else d6) := by
    split_ifs
    · exact ⟨le_refl _, hw6.2⟩
    · exact hw6
  have hc7 : (if d6.yPosition > env.pageHeight - 60 then
        { d6 with page := d6.page + 1, yPosition := pdfMargin }
      else d6).calls = d6.calls := by
    split_ifs <;> rfl
  obtain ⟨hw8, hc8⟩ := addText_within env h40 _ _ _ _ d8 hw7 h8
  obtain ⟨hw9, hc9⟩ := addText_within env h40 _ _ _ _ d9 hw8 h9
  obtain ⟨hw10, hc10⟩ := addText_within env h40 _ _ _ _ d10
    (within_advance _ d9 10 (by norm_num) hw9) h10
  subst hd
  refine ⟨⟨hw10.1, hw10.2⟩, ?_⟩
  rw [hc7] at hc8
  simp only at hc1 hc4 hc6 hc10
  show d10.calls = _
  rw [hc10, hc9, hc8, hc6, hc5, hc4, hc3, hc2, hc1]
  simp [headerCalls, trailerCalls]

/-- With a library that never throws, `addText` succeeds. -/
theorem addText_total (env : PdfEnv)
    (hsplit : ∀ text fontSize isBold width,
      ∃ lines, env.splitTextToSize text fontSize isBold width = .ok lines)
    (text : JSValue) (fontSize : Nat) (isBold : Bool) (doc : PdfDoc) :
    ∃ d, addText env text fontSize isBold doc = .ok d := by
  obtain ⟨lines, hl⟩ := hsplit text fontSize isBold (env.pageWidth - 2 * pdfMargin)
  simp only [addText, hl]
  exact ⟨_, rfl⟩

/-- With a library that never throws, the sections of truthy results succeed. -/
theorem addSections_total (env : PdfEnv)
    (hsplit : ∀ text fontSize isBold width,
      ∃ lines, env.splitTextToSize text fontSize isBold width = .ok lines)
    (results : JSValue) (hr : results.truthy = true) (sections : List (String × String))
    (doc : PdfDoc) : ∃ d, addSections env results sections doc = .ok d := by
  induction sections generalizing doc with
  | nil => exact ⟨doc, rfl⟩
  | cons sec rest ih =>
    obtain ⟨key, title⟩ := sec
    unfold addSections
    rw [getProp_of_truthy results key hr]
    by_cases hc : sectionCondition env (jsProp results key) = true
    · obtain ⟨d1, h1⟩ := addText_total env hsplit (.string title) 14 true doc
      obtain ⟨d2, h2⟩ := addText_total env hsplit (jsProp results key) 11 false d1
      simp only [hc, if_true, h1, h2]
      exact ih _
    · simp only [hc, if_false]
      exact ih _

/-- With a library that never throws, the document of truthy results is
finished. -/
theorem buildPdf_total (env : PdfEnv)
    (hsplit : ∀ text fontSize isBold width,
      ∃ lines, env.splitTextToSize text fontSize isBold width = .ok lines)
    (content results timestamp footerText : JSValue) (hr : results.truthy = true) :
    ∃ d, buildPdf env content results timestamp footerText = .ok d := by
  obtain ⟨d1, h1⟩ := addText_total env hsplit (.string "PRIVACY PRISM") 20 true
    ⟨20, 1, [], [], none⟩
  obtain ⟨d2, h2⟩ := addText_total env hsplit (.string "Privacy Risk Analysis Report") 16 true d1
  obtain ⟨d3, h3⟩ := addText_total env hsplit
    (.string ("Generated on " ++ if timestamp.truthy then timestamp.display else env.localeNow))
    10 false d2
  obtain ⟨d4, h4⟩ := addText_total env hsplit (.string "Analyzed Content") 14 true
    { d3 with yPosition := d3.yPosition + 10 }
  obtain ⟨d5, h5⟩ := addText_total env hsplit content 12 false d4
  obtain ⟨d6, h6⟩ := addSections_total env hsplit results hr pdfSections
    { d5 with yPosition := d5.yPosition + 5 }
  obtain ⟨d8, h8⟩ := addText_total env hsplit (.string "About Privacy Prism") 14 true
    (if d6.yPosition > env.pageHeight - 60 then
      { d6 with page := d6.page + 1, yPosition := pdfMargin }
    else d6)
  obtain ⟨d9, h9⟩ := addText_total env hsplit
    (if footerText.truthy then footerText else .string defaultFooterText) 10 false d8
  obtain ⟨d10, h10⟩ := addText_total env hsplit (.string disclaimerText) 9 false
    { d9 with yPosition := d9.yPosition + 10 }
  simp only [buildPdf, bind_eq_ok, pure, Except.pure]
  exact ⟨_, d1, h1, d2, h2, d3, h3, d4, h4, d5, h5, d6, h6, d8, h8, d9, h9, d10, h10, rfl⟩

/-- The handler by cases: an unreadable body gives `500`, a falsy `content` or
`results` gives `400`, and otherwise the response follows the drawing. -/
theorem generatePdf_of_props (env : PdfEnv) (body content results timestamp footerText : JSValue)
    (hc : body.getProp "content" = .ok content) (hr : body.getProp "results" = .ok results)
    (ht : body.getProp "timestamp" = .ok timestamp)
    (hf : body.getProp "footerText" = .ok footerText) :
    generatePdf env body =
      if !content.truthy || !results.truthy then
        .error 400 "Missing content or results in request body"
      else
        match buildPdf env content results timestamp footerText with
        | .error e => .error 500 ("Failed to generate PDF: " ++ e.message)
        | .ok doc => .pdf doc := by
  simp only [generatePdf, hc, hr, ht, hf, bind, Except.bind]
  split_ifs
  · rfl
  · cases buildPdf env content results timestamp footerText <;> rfl

/-- A string has code units exactly when it is not empty. -/
theorem utf16Length_pos (s : String) : 0 < utf16Length s ↔ s ≠ "" := by
  obtain ⟨chars⟩ := s
  cases chars with
  | nil => simp [utf16Length]
  | cons c rest =>
    constructor
    · intro _ h
      have := congrArg String.data h
      simp at this
    · intro _
      simp only [utf16Length, List.map_cons, List.sum_cons]
      split_ifs <;> omega

/-- The loop of `addText` draws the given lines in order, in the font of the
call: the first at the position of `yPosition`, each next one placed after
the one before it. -/
theorem addTextLines_placed (pageHeight : ℚ) (fontSize : Nat) (isBold : Bool)
    (lines : List String) (doc : PdfDoc) :
    ∃ new, (addTextLines pageHeight fontSize isBold lines doc).lines = doc.lines ++ new ∧
      new.map DrawnLine.styled = lines.map (fun line => (line, fontSize, isBold)) ∧
      (∀ l, new.head? = some l →
        l.y = linePosition pageHeight doc.yPosition ∧
        l.page = linePage pageHeight doc.yPosition doc.page) ∧
      new.Chain' (Follows pageHeight) := by
  induction lines generalizing doc with
  | nil => exact ⟨[], by simp [addTextLines], rfl, by simp, List.chain'_nil⟩
  | cons line rest ih =>
    have hstep : addTextLines pageHeight fontSize isBold (line :: rest) doc =
        addTextLines pageHeight fontSize isBold rest
          { doc with
            page := linePage pageHeight doc.yPosition doc.page
            lines := doc.lines ++ [⟨line, linePosition pageHeight doc.yPosition,
              linePage pageHeight doc.yPosition doc.page, fontSize, isBold⟩]
            yPosition := linePosition pageHeight doc.yPosition + 7 } := by
      rw [addTextLines]
      by_cases hy : doc.yPosition > pageHeight - 20
      · have hy2 : doc.yPosition > pageHeight - pdfMargin := hy
        simp [hy, hy2, linePosition, linePage, pdfMargin, pdfLineHeight]
      · have hy2 : ¬ doc.yPosition > pageHeight - pdfMargin := hy
        simp [hy, hy2, linePosition, linePage, pdfLineHeight]
    rw [hstep]
    obtain ⟨new, h1, h2, h3, h4⟩ := ih
      { doc with
        page := linePage pageHeight doc.yPosition doc.page
        lines := doc.lines ++ [⟨line, linePosition pageHeight doc.yPosition,
          linePage pageHeight doc.yPosition doc.page, fontSize, isBold⟩]
        yPosition := linePosition pageHeight doc.yPosition + 7 }
    refine ⟨⟨line, linePosition pageHeight doc.yPosition,
      linePage pageHeight doc.yPosition doc.page, fontSize, isBold⟩ :: new, ?_, ?_, ?_, ?_⟩
    · rw [h1]
      simp
    · simp [h2, DrawnLine.styled]
    · intro l hl
      simp only [List.head?_cons, Option.some.injEq] at hl
      subst hl
      exact ⟨rfl, rfl⟩
    · rw [List.chain'_cons']
      refine ⟨?_, h4⟩
      intro l hl
      exact h3 l hl

/-- A successful `addText` draws exactly the lines the library breaks its text
into, placed one after the other from the position of `yPosition`. -/
theorem addText_placed (env : PdfEnv) (text : JSValue) (fontSize : Nat) (isBold : Bool)
    (doc d : PdfDoc) (h : addText env text fontSize isBold doc = .ok d) :
    ∃ new, d.lines = doc.lines ++ new ∧
      new.map DrawnLine.styled = callLines env (text, fontSize, isBold) ∧
      (∀ l, new.head? = some l →
        l.y = linePosition env.pageHeight doc.yPosition ∧
        l.page = linePage env.pageHeight doc.yPosition doc.page) ∧
      new.Chain' (Follows env.pageHeight) := by
  unfold addText at h
  cases hs : env.splitTextToSize text fontSize isBold (env.pageWidth - 2 * pdfMargin) with
  | error e => simp [hs] at h
  | ok lines =>
    simp only [hs, Except.ok.injEq] at h
    subst h
    obtain ⟨new, h1, h2, h3, h4⟩ := addTextLines_placed env.pageHeight fontSize isBold lines
      { doc with calls := doc.calls ++ [(text, fontSize, isBold)] }
    exact ⟨new, h1, by simp [callLines, hs, h2], h3, h4⟩

/-- A successful `addText` keeps the drawn lines those of the logged calls. -/
theorem addText_drawn (env : PdfEnv) (text : JSValue) (fontSize : Nat) (isBold : Bool)
    (doc d : PdfDoc) (hdoc : doc.lines.map DrawnLine.styled = linesOfCalls env doc.calls)
    (h : addText env text fontSize isBold doc = .ok d) :
    d.lines.map DrawnLine.styled = linesOfCalls env d.calls ∧
      d.calls = doc.calls ++ [(text, fontSize, isBold)] := by
  obtain ⟨new, h1, h2, _, _⟩ := addText_placed env text fontSize isBold doc d h
  have hcalls : d.calls = doc.calls ++ [(text, fontSize, isBold)] := by
    unfold addText at h
    cases hs : env.splitTextToSize text fontSize isBold (env.pageWidth - 2 * pdfMargin) with
    | error e => simp [hs] at h
    | ok lines =>
      simp only [hs, Except.ok.injEq] at h
      subst h
      obtain ⟨_, _, hc⟩ := addTextLines_append env.pageHeight fontSize isBold lines
        { doc with calls := doc.calls ++ [(text, fontSize, isBold)] }
      exact hc
  refine ⟨?_, hcalls⟩
  rw [h1, hcalls, List.map_append, hdoc, h2]
  simp [linesOfCalls]

/-- The sections keep the drawn lines those of the logged calls. -/
theorem addSections_drawn (env : PdfEnv) (results : JSValue)
    (sections : List (String × String)) (doc d : PdfDoc)
    (hdoc : doc.lines.map DrawnLine.styled = linesOfCalls env doc.calls)
    (h : addSections env results sections doc = .ok d) :
    d.lines.map DrawnLine.styled = linesOfCalls env d.calls := by
  induction sections generalizing doc with
  | nil =>
    simp only [addSections, Except.ok.injEq] at h
    subst h
    exact hdoc
  | cons sec rest ih =>
    obtain ⟨key, title⟩ := sec
    unfold addSections at h
    cases hp : results.getProp key with
    | error e => simp [hp] at h
    | ok result =>
      simp only [hp] at h
      by_cases hc : sectionCondition env result = true
      · simp only [hc, if_true] at h
        cases h1 : addText env (.string title) 14 true doc with
        | error e => simp [h1] at h
        | ok doc1 =>
          simp only [h1] at h
          obtain ⟨hd1, _⟩ := addText_drawn env _ _ _ doc doc1 hdoc h1
          cases h2 : addText env result 11 false doc1 with
          | error e => simp [h2] at h
          | ok doc2 =>
            simp only [h2] at h
            obtain ⟨hd2, _⟩ := addText_drawn env _ _ _ doc1 doc2 hd1 h2
            exact ih { doc2 with yPosition := doc2.yPosition + 3 } hd2 h
      · simp only [hc, if_false] at h
        exact ih doc hdoc h

/-- In a document the handler finishes, the drawn lines are those of the
logged calls. -/
theorem buildPdf_drawn (env : PdfEnv) (content results timestamp footerText : JSValue)
    (d : PdfDoc) (h : buildPdf env content results timestamp footerText = .ok d) :
    d.lines.map DrawnLine.styled = linesOfCalls env d.calls := by
  simp only [buildPdf, bind_eq_ok, pure, Except.pure, Except.ok.injEq] at h
  obtain ⟨d1, h1, d2, h2, d3, h3, d4, h4, d5, h5, d6, h6, d8, h8, d9, h9, d10, h10, hd⟩ := h
  have hd0 : (PdfDoc.mk 20 1 [] [] none).lines.map DrawnLine.styled =
      linesOfCalls env (PdfDoc.mk 20 1 [] [] none).calls := by
    simp [linesOfCalls]
  obtain ⟨hd1, _⟩ := addText_drawn env _ _ _ _ d1 hd0 h1
  obtain ⟨hd2, _⟩ := addText_drawn env _ _ _ _ d2 hd1 h2
  obtain ⟨hd3, _⟩ := addText_drawn env _ _ _ _ d3 hd2 h3
  obtain ⟨hd4, _⟩ := addText_drawn env _ _ _ { d3 with yPosition := d3.yPosition + 10 } d4
    hd3 h4
  obtain ⟨hd5, _⟩ := addText_drawn env _ _ _ _ d5 hd4 h5
  have hd6 := addSections_drawn env results pdfSections
    { d5 with yPosition := d5.yPosition + 5 } d6 hd5 h6
  have hd7 : (if d6.yPosition > env.pageHeight - 60 then
        { d6 with page := d6.page + 1, yPosition := pdfMargin }
      else d6).lines.map DrawnLine.styled =
      linesOfCalls env (if d6.yPosition > env.pageHeight - 60 then
        { d6 with page := d6.page + 1, yPosition := pdfMargin }
      else d6).calls := by
    split_ifs
    · exact hd6
    · exact hd6
  obtain ⟨hd8, _⟩ := addText_drawn env _ _ _ _ d8 hd7 h8
  obtain ⟨hd9, _⟩ := addText_drawn env _ _ _ _ d9 hd8 h9
  obtain ⟨hd10, _⟩ := addText_drawn env _ _ _ { d9 with yPosition := d9.yPosition + 10 } d10
    hd9 h10
  subst hd
  exact hd10

/-- The sections make exactly the calls of the sections whose result passes
the condition, in order. -/
theorem addSections_calls (env : PdfEnv) (results : JSValue)
    (sections : List (String × String)) (doc d : PdfDoc)
    (h : addSections env results sections doc = .ok d) :
    d.calls = doc.calls ++ sectionCalls env results sections := by
  induction sections generalizing doc with
  | nil =>
    simp only [addSections, Except.ok.injEq] at h
    subst h
    simp [sectionCalls]
  | cons sec rest ih =>
    obtain ⟨key, title⟩ := sec
    unfold addSections at h
    cases hp : results.getProp key with
    | error e => simp [hp] at h
    | ok result =>
      have hprop : jsProp results key = result := by simp [jsProp, hp]
      simp only [hp] at h
      by_cases hc : sectionCondition env result = true
      · simp only [hc, if_true] at h
        cases h1 : addText env (.string title) 14 true doc with
        | error e => simp [h1] at h
        | ok doc1 =>
          simp only [h1] at h
          obtain ⟨new1, _, hc1⟩ : ∃ new, doc1.lines = doc.lines ++ new ∧
              doc1.calls = doc.calls ++ [(JSValue.string title, 14, true)] := by
            unfold addText at h1
            cases hs : env.splitTextToSize (.string title) 14 true
                (env.pageWidth - 2 * pdfMargin) with
            | error e => simp [hs] at h1
            | ok lines =>
              simp only [hs, Except.ok.injEq] at h1
              subst h1
              exact addTextLines_append env.pageHeight 14 true lines
                { doc with calls := doc.calls ++ [(JSValue.string title, 14, true)] }
          cases h2 : addText env result 11 false doc1 with
          | error e => simp [h2] at h
          | ok doc2 =>
            simp only [h2] at h
            obtain ⟨new2, _, hc2⟩ : ∃ new, doc2.lines = doc1.lines ++ new ∧
                doc2.calls = doc1.calls ++ [(result, 11, false)] := by
              unfold addText at h2
              cases hs : env.splitTextToSize result 11 false
                  (env.pageWidth - 2 * pdfMargin) with
              | error e => simp [hs] at h2
              | ok lines =>
                simp only [hs, Except.ok.injEq] at h2
                subst h2
                exact addTextLines_append env.pageHeight 11 false lines
                  { doc1 with calls := doc1.calls ++ [(result, 11, false)] }
            have hc3 := ih { doc2 with yPosition := doc2.yPosition + 3 } h
            rw [hc3]
            simp only [hc2, hc1]
            simp [sectionCalls, List.filter_cons, hprop, hc]
      · simp only [hc, if_false] at h
        rw [ih doc h]
        simp [sectionCalls, List.filter_cons, hprop, hc]

/-- The calls of `addText` of a document the handler finishes: the header,
the sections that pass the condition, in order, and the trailer. -/
theorem buildPdf_calls (env : PdfEnv) (content results timestamp footerText : JSValue)
    (d : PdfDoc) (h : buildPdf env content results timestamp footerText = .ok d) :
    d.calls = headerCalls env content timestamp ++ sectionCalls env results pdfSections ++
      trailerCalls footerText := by
  simp only [buildPdf, bind_eq_ok, pure, Except.pure, Except.ok.injEq] at h
  obtain ⟨d1, e1, d2, e2, d3, e3, d4, e4, d5, e5, d6, e6, d8, e8, d9, e9, d10, e10, he⟩ := h
  have c0 : (PdfDoc.mk 20 1 [] [] none).lines.map DrawnLine.styled =
      linesOfCalls env (PdfDoc.mk 20 1 [] [] none).calls := by simp [linesOfCalls]
  obtain ⟨k1, c1⟩ := addText_drawn env _ _ _ _ d1 c0 e1
  obtain ⟨k2, c2⟩ := addText_drawn env _ _ _ _ d2 k1 e2
  obtain ⟨k3, c3⟩ := addText_drawn env _ _ _ _ d3 k2 e3
  obtain ⟨k4, c4⟩ := addText_drawn env _ _ _ { d3 with yPosition := d3.yPosition + 10 } d4
    k3 e4
  obtain ⟨k5, c5⟩ := addText_drawn env _ _ _ _ d5 k4 e5
  have c6 := addSections_calls env results pdfSections
    { d5 with yPosition := d5.yPosition + 5 } d6 e6
  have k6 := addSections_drawn env results pdfSections
    { d5 with yPosition := d5.yPosition + 5 } d6 k5 e6
  have k7 : (if d6.yPosition > env.pageHeight - 60 then
        { d6 with page := d6.page + 1, yPosition := pdfMargin }
      else d6).lines.map DrawnLine.styled =
      linesOfCalls env (if d6.yPosition > env.pageHeight - 60 then
        { d6 with page := d6.page + 1, yPosition := pdfMargin }
      else d6).calls := by
    split_ifs
    · exact k6
    · exact k6
  have c7 : (if d6.yPosition > env.pageHeight - 60 then
        { d6 with page := d6.page + 1, yPosition := pdfMargin }
      else d6).calls = d6.calls := by
    split_ifs <;> rfl
  obtain ⟨k8, c8⟩ := addText_drawn env _ _ _ _ d8 k7 e8
  obtain ⟨k9, c9⟩ := addText_drawn env _ _ _ _ d9 k8 e9
  obtain ⟨_, c10⟩ := addText_drawn env _ _ _ { d9 with yPosition := d9.yPosition + 10 } d10
    k9 e10
  subst he
  rw [c7] at c8
  simp only at c1 c4 c6 c10
  show d10.calls = _
  rw [c10, c9, c8, c6, c5, c4, c3, c2, c1]
  simp [headerCalls, trailerCalls]

/-- C13 (counterexample): a body with `content` and `results` but without
`timestamp` (and without `footerText`) is answered with status 200 and a
document. -/
theorem generatePdf_without_timestamp :
    pdfBodyWithoutTimestamp.getProp "timestamp" = .ok .undefined ∧
      (generatePdf examplePdfEnv pdfBodyWithoutTimestamp).status = 200 :=
  ⟨rfl, by decide⟩

/-- C13 (amended): for a body whose `content` or `results` is missing or empty
(falsy) the handler answers `400` and draws nothing; a body with both is
answered with status 200 whenever the library does not throw, whatever its
`timestamp` and `footerText` are, and the lines of the document are those of
the header, the sections and the trailer, where the third header text is
`Generated on ` followed by the timestamp, or by the current local time when
the timestamp is missing, and the footer text is `footerText`, or the default
footer text when it is missing; a document is only ever sent for a body with
both `content` and `results`. -/
theorem generatePdf_required_fields (env : PdfEnv)
    (body content results timestamp footerText : JSValue)
    (hc : body.getProp "content" = .ok content) (hr : body.getProp "results" = .ok results)
    (ht : body.getProp "timestamp" = .ok timestamp)
    (hf : body.getProp "footerText" = .ok footerText) :
    ((content.truthy = false ∨ results.truthy = false) →
        generatePdf env body = .error 400 "Missing content or results in request body" ∧
        (generatePdf env body).lines = []) ∧
      (content.truthy = true → results.truthy = true →
        (∀ text fontSize isBold width,
          ∃ lines, env.splitTextToSize text fontSize isBold width = .ok lines) →
        (generatePdf env body).status = 200 ∧
        (generatePdf env body).lines.map DrawnLine.styled =
          linesOfCalls env
            ([(.string "PRIVACY PRISM", 20, true),
              (.string "Privacy Risk Analysis Report", 16, true),
              (.string ("Generated on " ++
                if timestamp.truthy then timestamp.display else env.localeNow), 10, false),
              (.string "Analyzed Content", 14, true), (content, 12, false)] ++
              sectionCalls env results pdfSections ++
              [(.string "About Privacy Prism", 14, true),
               (if footerText.truthy then footerText else .string defaultFooterText, 10, false),
               (.string disclaimerText, 9, false)]) ∧
        (timestamp.truthy = false → footerText.truthy = false →
          (generatePdf env body).lines.map DrawnLine.styled =
            linesOfCalls env
              ([(.string "PRIVACY PRISM", 20, true),
                (.string "Privacy Risk Analysis Report", 16, true),
                (.string ("Generated on " ++ env.localeNow), 10, false),
                (.string "Analyzed Content", 14, true), (content, 12, false)] ++
                sectionCalls env results pdfSections ++
                [(.string "About Privacy Prism", 14, true),
                 (.string defaultFooterText, 10, false),
                 (.string disclaimerText, 9, false)]))) ∧
      (∀ doc, generatePdf env body = .pdf doc →
        content.truthy = true ∧ results.truthy = true) := by
  have hgen := generatePdf_of_props env body content results timestamp footerText hc hr ht hf
  refine ⟨?_, ?_, ?_⟩
  · intro h
    rw [hgen]
    rcases h with h | h <;> simp [h, PdfResponse.lines]
  · intro h1 h2 hsplit
    obtain ⟨d, hd⟩ := buildPdf_total env hsplit content results timestamp footerText h2
    have hresp : generatePdf env body = .pdf d := by
      rw [hgen]
      simp [h1, h2, hd]
    have hlines := buildPdf_drawn env content results timestamp footerText d hd
    have hcalls := buildPdf_calls env content results timestamp footerText d hd
    have hmain : (generatePdf env body).lines.map DrawnLine.styled =
        linesOfCalls env (headerCalls env content timestamp ++
          sectionCalls env results pdfSections ++ trailerCalls footerText) := by
      rw [hresp]
      simp only [PdfResponse.lines]
      rw [hlines, hcalls]
    refine ⟨by rw [hresp]; rfl, hmain, ?_⟩
    intro hts hft
    rw [hmain]
    simp [headerCalls, trailerCalls, hts, hft]
  · intro doc hdoc
    rw [hgen] at hdoc
    by_cases h1 : content.truthy = true
    · by_cases h2 : results.truthy = true
      · exact ⟨h1, h2⟩
      · simp [h1, h2] at hdoc
    · simp [h1] at hdoc

/-- C13 (amended) at a concrete input: the body without `timestamp` and
`footerText` is answered with a document whose third line gives the current
local time and whose footer is the default footer text. -/
theorem generatePdf_required_fields_witness :
    (generatePdf examplePdfEnv pdfBodyWithoutTimestamp).status = 200 ∧
      (generatePdf examplePdfEnv pdfBodyWithoutTimestamp).lines.map DrawnLine.styled =
        [("PRIVACY PRISM", 20, true), ("Privacy Risk Analysis Report", 16, true),
         ("Generated on 1/1/2025, 12:00:00 AM", 10, false), ("Analyzed Content", 14, true),
         ("hello world", 12, false), ("01 EXPOSURE", 14, true),
         ("Names a workplace.", 11, false), ("About Privacy Prism", 14, true),
         ("This report was generated by Privacy Prism, a privacy risk analysis tool.", 10, false),
         (disclaimerText, 9, false)] :=
  ⟨((generatePdf_required_fields examplePdfEnv pdfBodyWithoutTimestamp (.string "hello world")
      (.object [("exposure", .string "Names a workplace."), ("inference", .string "")])
      .undefined .undefined rfl rfl rfl rfl).2.1 rfl rfl (fun _ _ _ _ => ⟨_, rfl⟩)).1,
    ((generatePdf_required_fields examplePdfEnv pdfBodyWithoutTimestamp (.string "hello world")
      (.object [("exposure", .string "Names a workplace."), ("inference", .string "")])
      .undefined .undefined rfl rfl rfl rfl).2.1 rfl rfl (fun _ _ _ _ => ⟨_, rfl⟩)).2.2 rfl rfl⟩

/-- The lines of every response of the handler are within the margins. -/
theorem generatePdf_lines_within (env : PdfEnv) (h40 : 40 ≤ env.pageHeight) (body : JSValue)
    (l : DrawnLine) (hl : l ∈ (generatePdf env body).lines) :
    20 ≤ l.y ∧ l.y ≤ env.pageHeight - 20 := by
  cases hresp : generatePdf env body with
  | error status message => simp [hresp, PdfResponse.lines] at hl
  | pdf doc =>
    rw [hresp] at hl
    simp only [PdfResponse.lines] at hl
    cases hc : body.getProp "content" with
    | error e => cases body <;> simp [JSValue.getProp] at hc <;>
        simp [generatePdf, JSValue.getProp, bind, Except.bind] at hresp
    | ok content =>
      have hbody : ∀ key, body.getProp key = .ok (jsProp body key) := by
        intro key
        cases body <;> simp [JSValue.getProp] at hc <;> simp [JSValue.getProp, jsProp]
      rw [generatePdf_of_props env body _ _ _ _ (hbody "content") (hbody "results")
        (hbody "timestamp") (hbody "footerText")] at hresp
      split_ifs at hresp
      cases hb : buildPdf env (jsProp body "content") (jsProp body "results")
          (jsProp body "timestamp") (jsProp body "footerText") with
      | error e => simp [hb] at hresp
      | ok d =>
        simp only [hb, PdfResponse.pdf.injEq] at hresp
        subst hresp
        exact (buildPdf_within env h40 _ _ _ _ d hb).1.2 l hl

/-- The lines of a response with status 200 are those of the header, the
sections that pass the condition, in order, and the trailer. -/
theorem generatePdf_lines_drawn (env : PdfEnv) (body : JSValue)
    (h : (generatePdf env body).status = 200) :
    (generatePdf env body).lines.map DrawnLine.styled =
      linesOfCalls env
        (headerCalls env (jsProp body "content") (jsProp body "timestamp") ++
          sectionCalls env (jsProp body "results") pdfSections ++
          trailerCalls (jsProp body "footerText")) := by
  cases hc : body.getProp "content" with
  | error e => cases body <;> simp [JSValue.getProp] at hc <;>
      simp [generatePdf, JSValue.getProp, bind, Except.bind, PdfResponse.status] at h
  | ok content =>
    have hbody : ∀ key, body.getProp key = .ok (jsProp body key) := by
      intro key
      cases body <;> simp [JSValue.getProp] at hc <;> simp [JSValue.getProp, jsProp]
    have hgen := generatePdf_of_props env body _ _ _ _ (hbody "content") (hbody "results")
      (hbody "timestamp") (hbody "footerText")
    rw [hgen] at h ⊢
    split_ifs at h ⊢
    · simp [PdfResponse.status] at h
    · cases hb : buildPdf env (jsProp body "content") (jsProp body "results")
          (jsProp body "timestamp") (jsProp body "footerText") with
      | error e => simp [hb, PdfResponse.status] at h
      | ok d =>
        simp only [PdfResponse.lines]
        rw [buildPdf_drawn env _ _ _ _ d hb, buildPdf_calls env _ _ _ _ d hb]

/-- C16: with `margin = 20` and `pageHeight ≥ 40`, a call of `addText` that
starts with `yPosition ≥ 20` draws exactly the lines the library breaks its
text into, in the font of the call, each at a position `y` with
`20 ≤ y ≤ pageHeight - 20`, and ends with `yPosition ≥ 20`; the first line
is drawn at `yPosition`, and each next line seven units lower, except that a
line that would pass the bottom margin is drawn at 20 on a new page; in every
response of the endpoint all lines are within these bounds, and the lines of
a document that is sent are those of the header, then of the title and text
of each section whose result passes `result && result.length > 0`, in the
order exposure, inference, audience, platforms, amplification,
manipulability, then of the trailer; a string or an array passes that
condition exactly when it is not empty, and a missing result, `null`, a
number and a boolean do not. -/
theorem addText_within_margins (env : PdfEnv) (h40 : 40 ≤ env.pageHeight) :
    (∀ text fontSize isBold (doc d : PdfDoc), 20 ≤ doc.yPosition →
        addText env text fontSize isBold doc = .ok d →
        20 ≤ d.yPosition ∧
          ∃ new, d.lines = doc.lines ++ new ∧
            new.map DrawnLine.styled = callLines env (text, fontSize, isBold) ∧
            (∀ l, l ∈ new → 20 ≤ l.y ∧ l.y ≤ env.pageHeight - 20) ∧
            (∀ l, new.head? = some l →
              l.y = (if doc.yPosition > env.pageHeight - 20 then 20 else doc.yPosition) ∧
              l.page = (if doc.yPosition > env.pageHeight - 20 then doc.page + 1
                else doc.page)) ∧
            new.Chain' (fun a b =>
              b.y = (if a.y + 7 > env.pageHeight - 20 then 20 else a.y + 7) ∧
              b.page = (if a.y + 7 > env.pageHeight - 20 then a.page + 1 else a.page))) ∧
      (∀ fontSize isBold line rest (doc : PdfDoc), doc.yPosition > env.pageHeight - 20 →
        ∃ more, (addTextLines env.pageHeight fontSize isBold (line :: rest) doc).lines =
          doc.lines ++ ⟨line, 20, doc.page + 1, fontSize, isBold⟩ :: more) ∧
      (∀ fontSize isBold line rest (doc : PdfDoc), ¬ doc.yPosition > env.pageHeight - 20 →
        ∃ more, (addTextLines env.pageHeight fontSize isBold (line :: rest) doc).lines =
          doc.lines ++ ⟨line, doc.yPosition, doc.page, fontSize, isBold⟩ :: more) ∧
      (∀ body,
        (∀ l, l ∈ (generatePdf env body).lines → 20 ≤ l.y ∧ l.y ≤ env.pageHeight - 20) ∧
        ((generatePdf env body).status = 200 →
          (generatePdf env body).lines.map DrawnLine.styled =
            linesOfCalls env
              (headerCalls env (jsProp body "content") (jsProp body "timestamp") ++
                (pdfSections.filter (fun sec =>
                    sectionCondition env (jsProp (jsProp body "results") sec.1))).flatMap
                  (fun sec => [(JSValue.string sec.2, 14, true),
                    (jsProp (jsProp body "results") sec.1, 11, false)]) ++
                trailerCalls (jsProp body "footerText")))) ∧
      pdfSections.map Prod.fst = dimensions ∧
      (∀ s, sectionCondition env (.string s) = true ↔ s ≠ "") ∧
      (∀ items, sectionCondition env (.array items) = true ↔ items ≠ []) ∧
      sectionCondition env .undefined = false ∧ sectionCondition env .null = false ∧
      (∀ n, sectionCondition env (.number n) = false) ∧
      (∀ b, sectionCondition env (.bool b) = false) := by
  refine ⟨?_, ?_, ?_, ?_, by decide, ?_, ?_, rfl, rfl, ?_, ?_⟩
  · intro text fontSize isBold doc d hy h
    obtain ⟨_, hy2, new, hl, hb⟩ := addText_ok env h40 text fontSize isBold doc d hy h
    obtain ⟨new2, hl2, hs2, hh2, hc2⟩ := addText_placed env text fontSize isBold doc d h
    have hnew : new2 = new := List.append_cancel_left (hl2.symm.trans hl)
    subst hnew
    exact ⟨hy2, new2, hl, hs2, hb, hh2, hc2⟩
  · intro fontSize isBold line rest doc hy
    have hy2 : doc.yPosition > env.pageHeight - pdfMargin := hy
    rw [addTextLines]
    simp only [hy2, if_true]
    obtain ⟨more, hm, _⟩ := addTextLines_append env.pageHeight fontSize isBold rest
      { doc with page := doc.page + 1,
                 lines := doc.lines ++ [⟨line, pdfMargin, doc.page + 1, fontSize, isBold⟩],
                 yPosition := pdfMargin + pdfLineHeight }
    exact ⟨more, by rw [hm]; simp [pdfMargin]⟩
  · intro fontSize isBold line rest doc hy
    have hy2 : ¬ doc.yPosition > env.pageHeight - pdfMargin := hy
    rw [addTextLines]
    simp only [hy2, if_false]
    obtain ⟨more, hm, _⟩ := addTextLines_append env.pageHeight fontSize isBold rest
      { doc with lines := doc.lines ++ [⟨line, doc.yPosition, doc.page, fontSize, isBold⟩],
                 yPosition := doc.yPosition + pdfLineHeight }
    exact ⟨more, by rw [hm]; simp⟩
  · intro body
    exact ⟨fun l hl => generatePdf_lines_within env h40 body l hl,
      fun h => generatePdf_lines_drawn env body h⟩
  · intro s
    have hpos := utf16Length_pos s
    by_cases hs : s = ""
    · subst hs
      simp [sectionCondition, JSValue.truthy]
    · have : 0 < utf16Length s := hpos.2 hs
      simp [sectionCondition, JSValue.truthy, jsLength, jsGreaterThanZero, hs, this]
  · intro items
    cases items with
    | nil => simp [sectionCondition, JSValue.truthy, jsLength, jsGreaterThanZero]
    | cons x rest =>
      simp [sectionCondition, JSValue.truthy, jsLength, jsGreaterThanZero]
  · intro n
    simp [sectionCondition, jsLength, jsGreaterThanZero]
  · intro b
    simp [sectionCondition, jsLength, jsGreaterThanZero]

/-- C16 at concrete inputs, on an A4 page: in the document sent for a body
with texts for `platforms` and `exposure` only, every line is within the
margins and the lines are the header, the exposure section, the platforms
section and the trailer; and a line that follows position 280 is drawn at 20
on the next page. -/
theorem addText_within_margins_witness :
    ((40 : ℚ) ≤ examplePdfEnv.pageHeight ∧
        (generatePdf examplePdfEnv pdfBodySomeSections).status = 200 ∧
        (280 : ℚ) > examplePdfEnv.pageHeight - 20) ∧
      (∀ l, l ∈ (generatePdf examplePdfEnv pdfBodySomeSections).lines →
        20 ≤ l.y ∧ l.y ≤ examplePdfEnv.pageHeight - 20) ∧
      (generatePdf examplePdfEnv pdfBodySomeSections).lines.map DrawnLine.styled =
        [("PRIVACY PRISM", 20, true), ("Privacy Risk Analysis Report", 16, true),
         ("Generated on January 1, 2025 at 12:00 AM", 10, false),
         ("Analyzed Content", 14, true), ("hello world", 12, false),
         ("01 EXPOSURE", 14, true), ("Names a workplace.", 11, false),
         ("04 PLATFORMS & RULES", 14, true), ("Public by default.", 11, false),
         ("About Privacy Prism", 14, true), ("Footer.", 10, false),
         (disclaimerText, 9, false)] ∧
      ∃ more, (addTextLines examplePdfEnv.pageHeight 12 false ["hello"]
          ⟨280, 1, [], [], none⟩).lines =
        [] ++ (⟨"hello", 20, 2, 12, false⟩ : DrawnLine) :: more :=
  ⟨⟨by norm_num [examplePdfEnv], by decide, by norm_num [examplePdfEnv]⟩,
    ((addText_within_margins examplePdfEnv (by norm_num [examplePdfEnv])).2.2.2.1
      pdfBodySomeSections).1,
    ((addText_within_margins examplePdfEnv (by norm_num [examplePdfEnv])).2.2.2.1
      pdfBodySomeSections).2 (by decide),
    (addText_within_margins examplePdfEnv (by norm_num [examplePdfEnv])).2.1 12 false "hello"
      [] ⟨280, 1, [], [], none⟩ (by norm_num [examplePdfEnv])⟩

end PrivacyPrism
